import Mathlib

/-!
The HTTP request layer of the core: `core/http_request.cpp`.

A shallow embedding of the HTTP request layer of `src/core/http_request.cpp`
(the per-thread handle pool, the request context `curl_context`, the callback
adapters and the request entity `http_request_simple`) together with the
properties proved about it.

Conventions of the embedding

* `std::string` and `std::wstring` are lists of characters; `tools::from_utf16`
  is the identity on them.
* A pointer is an `Option`; `none` is the null pointer.
* The transport engine (libcurl) is outside the repository.  A handle is a
  number, `curl_easy_init` hands out a number that was never handed out before
  (it is taken to succeed, as the source asserts), and the options put on a
  handle with `curl_easy_setopt` are kept in a record.
  `curl_easy_perform` is a parameter of the development: the outcome of the
  n-th perform of the process on a handle carrying given options.
* `assert` is compiled out (release build); where a property is about an
  assertion, the asserted condition is stated on its own.
* Calls that leave the process for a collaborator (`curl_easy_perform`,
  `g_core->switch_proxy_settings()`, the network log, the progress function)
  are recorded in history fields, so that "how many times" and "with which
  arguments" can be stated.
-/

namespace core

/-! ## Data model -/

/-- A `std::string`: the sequence of its characters. -/
abbrev std_string := List Char

/-- The settings record `core::proxy_settings` (proxy_settings.h): the fields
`curl_context::init` and `send_request` read. -/
structure proxy_settings where
  use_proxy_ : Bool
  proxy_server_ : std_string
  proxy_port_ : Int
  proxy_type_ : Int
  need_auth_ : Bool
  login_ : std_string
  password_ : std_string
deriving DecidableEq, Repr

/-- One part of a multipart form built with `curl_formadd`. -/
inductive form_part where
  | field (name value : std_string)
  | file (name file_name : std_string)
  | buffer (name file_name data : std_string)
deriving DecidableEq, Repr

/-- The options a handle carries, one field per `CURLOPT_*` that
`curl_context` sets from its arguments.  `none`, `false` and `[]` mean
"not set".  `proxyuserpwd` is set together with `CURLOPT_PROXYAUTH`,
`timecondition` holds `CURLOPT_TIMEVALUE` under `CURL_TIMECOND_IFMODSINCE`,
`range` holds the two numbers of the string `from-to`, `followlocation` goes
with `CURLOPT_MAXREDIRS = 10`. -/
structure easy_options where
  ssl_verifypeer : Option Bool
  useragent : Option std_string
  timeout_ms : Option Int
  connecttimeout_ms : Option Int
  proxy : Option std_string
  proxyport : Option Int
  proxytype : Option Int
  proxyuserpwd : Option std_string
  range : Option (Int × Int)
  url : Option std_string
  followlocation : Bool
  cookiefile : Bool
  post : Bool
  httppost : Option (List form_part)
  postfields : Option (std_string × Int)
  timecondition : Option Int
  httpheader : List std_string
deriving DecidableEq, Repr

/-- The options of a handle fresh from `curl_easy_init` or `curl_easy_reset`. -/
def easy_options.unset : easy_options :=
  { ssl_verifypeer := none, useragent := none, timeout_ms := none,
    connecttimeout_ms := none, proxy := none, proxyport := none,
    proxytype := none, proxyuserpwd := none, range := none, url := none,
    followlocation := false, cookiefile := false, post := false,
    httppost := none, postfields := none, timecondition := none,
    httpheader := [] }

/-- What one `curl_easy_perform` did: the result code (`CURLE_OK` is 0), the
response code `CURLINFO_RESPONSE_CODE` reports afterwards, the bytes handed to
the body and header write callbacks, and the bytes the body and trace
callbacks put into the diagnostic log of a context that logs.  The polls of
the progress adapter during a transfer are described on their own, by
`progress_polls`. -/
structure transfer where
  res : Nat
  response_code : Int
  body : std_string
  header : std_string
  log : std_string
deriving DecidableEq, Repr

/-- The parts of the program that are not in this file: constants of absent
headers, the platform tests, the transport engine and the mutator of `g_core`
that persists a proxy choice (its effect on the pair of registry and auto
settings). -/
structure environment where
  auto_proxy : Int
  default_proxy_port : Int
  is_windows : Bool
  is_windows_vista_or_late : Bool
  curl_easy_perform : Nat → easy_options → transfer
  switch_proxy_settings : proxy_settings × proxy_settings → proxy_settings × proxy_settings

/-- The process-wide state the file works on: the map of `g_handles`
(thread identity to handle, ascending by thread identity), the next handle
`curl_easy_init` hands out, the two settings `g_core` serves, the static flag
`first` of `send_request`, and the histories of performs, of calls of
`switch_proxy_settings` and of buffers written to the network log. -/
structure process where
  handles_ : List (Nat × Nat)
  next_handle : Nat
  registry_proxy_settings : proxy_settings
  auto_proxy_settings : proxy_settings
  first : Bool
  performed : List (easy_options × transfer)
  switched : Nat
  network_log : List std_string
deriving DecidableEq, Repr

/-- A process that has made no request yet: `first` is constructed `true`. -/
def process.start (registry auto : proxy_settings) : process :=
  { handles_ := [], next_handle := 1, registry_proxy_settings := registry,
    auto_proxy_settings := auto, first := true, performed := [], switched := 0,
    network_log := [] }

/-! ## std::string -/

/-- The search `std::string::find(pat)` from position `pos` of the string
whose rest from `pos` on is given: the first position at which `pat` occurs,
`none` for `npos`. -/
def string_find_from (pat : std_string) : std_string → Nat → Option Nat
  | [], pos => if pat.isPrefixOf [] then some pos else none
  | c :: rest, pos =>
    if pat.isPrefixOf (c :: rest) then some pos else string_find_from pat rest (pos + 1)

/-- The search `std::string::find(pat)`. -/
def string_find (s pat : std_string) : Option Nat := string_find_from pat s 0

/-- The access `s[pos]` for `pos ≤ s.length()`; at the length it gives the
terminating zero character. -/
def string_at (s : std_string) (pos : Nat) : Char := s.getD pos (Char.ofNat 0)

/-- The replacement `std::string::replace(pos, len, str)` for a position
inside the string. -/
def string_replace (s : std_string) (pos len : Nat) (str : std_string) : std_string :=
  s.take pos ++ str ++ s.drop (pos + len)

/-! ## std::map -/

/-- The lookup `std::map::find`: the value stored under the key, if any. -/
def map_find {κ ν : Type} [DecidableEq κ] (k : κ) : List (κ × ν) → Option ν
  | [] => none
  | (k', v') :: rest => if k = k' then some v' else map_find k rest

/-- The assignment `m[k] = v` on a `std::map`, kept as the list of its
entries in ascending key order. -/
def map_assign {κ ν : Type} [LinearOrder κ] (k : κ) (v : ν) : List (κ × ν) → List (κ × ν)
  | [] => [(k, v)]
  | (k', v') :: rest =>
    if k < k' then (k, v) :: (k', v') :: rest
    else if k = k' then (k, v) :: rest
    else (k', v') :: map_assign k v rest

/-- The removal `std::map::erase` of the entry under a key. -/
def map_erase {κ ν : Type} [DecidableEq κ] (k : κ) : List (κ × ν) → List (κ × ν)
  | [] => []
  | (k', v') :: rest => if k = k' then rest else (k', v') :: map_erase k rest

/-! ## http_handles -/

/-- The engine call `curl_easy_init`: a handle never handed out before.  The
call is taken to succeed, as the source asserts after it. -/
def curl_easy_init (g : process) : Nat × process :=
  (g.next_handle, { g with next_handle := g.next_handle + 1 })

/-- The pool operation `http_handles::get_for_this_thread`, called by thread
`thread_id`. -/
def get_for_this_thread (thread_id : Nat) (g : process) : Nat × process :=
  match map_find thread_id g.handles_ with
  | some iter_handle => (iter_handle, g)
  | none =>
    let cg := curl_easy_init g
    let curl_handle := cg.1
    let g := cg.2
    (curl_handle, { g with handles_ := map_assign thread_id curl_handle g.handles_ })

/-- The pool operation `http_handles::on_thread_shutdown`, called by thread
`thread_id`. -/
def on_thread_shutdown (thread_id : Nat) (g : process) : process :=
  match map_find thread_id g.handles_ with
  | some _ => { g with handles_ := map_erase thread_id g.handles_ }
  | none => g

/-- An operation on the pool, tagged with the identity of the calling
thread. -/
inductive pool_op where
  | get (thread_id : Nat)
  | shutdown (thread_id : Nat)
deriving DecidableEq, Repr

/-- The process after one operation on the pool. -/
def pool_op.run : pool_op → process → process
  | pool_op.get thread_id, g => (get_for_this_thread thread_id g).2
  | pool_op.shutdown thread_id, g => on_thread_shutdown thread_id g

/-- The process after a sequence of operations on the pool, made one after
the other. -/
def run_pool_ops : List pool_op → process → process
  | [], g => g
  | op :: rest, g => run_pool_ops rest (op.run g)

/-- The state of a well-kept pool: the map is in strictly ascending order of
thread identity, every handle recorded was handed out by `curl_easy_init`
before, and no handle is recorded for two threads. -/
def pool_ok (g : process) : Prop :=
  g.handles_.Pairwise (fun a b => a.1 < b.1) ∧
  (∀ t h, map_find t g.handles_ = some h → h < g.next_handle) ∧
  ∀ t1 t2 h, t1 ≠ t2 → map_find t1 g.handles_ = some h → map_find t2 g.handles_ ≠ some h

/-! ## curl_context -/

/-- The request context `curl_context`.  `stop_func_` is the cancellation
predicate (`none` when the function object is empty), as a function of the
time of the poll; `progress_func_` tells whether a progress function was
supplied and `progress_calls_` lists the arguments of its invocations, oldest
first; `opts_` are the options of `curl_`, `response_code_info_` what
`CURLINFO_RESPONSE_CODE` reports for it; `post` is the form chain. -/
structure curl_context where
  curl_ : Option Nat
  opts_ : easy_options
  response_code_info_ : Int
  output_ : std_string
  header_ : std_string
  stop_func_ : Option (Nat → Bool)
  progress_func_ : Bool
  progress_calls_ : List (Int × Int × Int)
  bytes_transferred_pct_ : Int
  need_log_ : Bool
  log_data_ : std_string
  replace_log_function_ : std_string → std_string
  header_chunk_ : List std_string
  post : List form_part
  keep_alive_ : Bool

/-- The constructor of `curl_context`: a pooled handle under keep-alive, a
fresh one otherwise, empty buffers, logging on, percentage 0. -/
def curl_context.create (thread_id : Nat) (g : process) (_stop_func : Option (Nat → Bool))
    (_progress_func : Bool) (_keep_alive : Bool) : curl_context × process :=
  let hg := if _keep_alive then get_for_this_thread thread_id g else curl_easy_init g
  ({ curl_ := some hg.1, opts_ := easy_options.unset, response_code_info_ := 0,
     output_ := [], header_ := [], stop_func_ := _stop_func,
     progress_func_ := _progress_func, progress_calls_ := [],
     bytes_transferred_pct_ := 0, need_log_ := true, log_data_ := [],
     replace_log_function_ := fun s => s, header_chunk_ := [], post := [],
     keep_alive_ := _keep_alive }, hg.2)

/-- The proxy options `curl_context::init` puts on a handle for given
settings. -/
def proxy_options (env : environment) (_proxy_settings : proxy_settings) (o : easy_options) :
    easy_options :=
  if _proxy_settings.use_proxy_ then
    let o := { o with proxy := some _proxy_settings.proxy_server_ }
    let o := if _proxy_settings.proxy_port_ ≠ env.default_proxy_port then
      { o with proxyport := some _proxy_settings.proxy_port_ } else o
    let o := { o with proxytype := some _proxy_settings.proxy_type_ }
    if _proxy_settings.need_auth_ then
      { o with proxyuserpwd := some (_proxy_settings.login_ ++ [':'] ++ _proxy_settings.password_) }
    else o
  else o

/-- The method `curl_context::init`: fails without a handle, resets a
pooled handle, then sets the connection options. -/
def curl_context.init (env : environment) (ctx : curl_context) (_connect_timeout _timeout : Int)
    (_proxy_settings : proxy_settings) (_user_agent : std_string) : Bool × curl_context :=
  match ctx.curl_ with
  | none => (false, ctx)
  | some _ =>
    let o := if ctx.keep_alive_ then easy_options.unset else ctx.opts_
    let verify := if env.is_windows && !env.is_windows_vista_or_late then false else true
    let o := { o with ssl_verifypeer := some verify }
    let o := { o with useragent := some _user_agent }
    let o := if _timeout > 0 then { o with timeout_ms := some _timeout } else o
    let o := if _connect_timeout > 0 then { o with connecttimeout_ms := some _connect_timeout }
      else o
    let o := proxy_options env _proxy_settings o
    (true, { ctx with opts_ := o })

def curl_context.set_replace_log_function (ctx : curl_context) (_func : std_string → std_string) :
    curl_context :=
  { ctx with replace_log_function_ := _func }

def curl_context.is_need_log (ctx : curl_context) : Bool := ctx.need_log_

def curl_context.set_need_log (ctx : curl_context) (_need : Bool) : curl_context :=
  { ctx with need_log_ := _need }

def curl_context.write_log_string (ctx : curl_context) (_log_string : std_string) : curl_context :=
  { ctx with log_data_ := ctx.log_data_ ++ _log_string }

/-- The three assertions at the head of `curl_context::set_range`. -/
def set_range_asserts (_from _to : Int) : Prop := _from ≥ 0 ∧ _to > 0 ∧ _from < _to

def curl_context.set_range (ctx : curl_context) (_from _to : Int) : curl_context :=
  { ctx with opts_ := { ctx.opts_ with range := some (_from, _to) } }

def curl_context.set_url (ctx : curl_context) (sz_url : std_string) : curl_context :=
  let o := { ctx.opts_ with url := some sz_url, followlocation := true }
  let o := if !ctx.keep_alive_ then { o with cookiefile := true } else o
  { ctx with opts_ := o }

def curl_context.set_post (ctx : curl_context) : curl_context :=
  { ctx with opts_ := { ctx.opts_ with post := true } }

def curl_context.set_http_post (ctx : curl_context) : curl_context :=
  { ctx with opts_ := { ctx.opts_ with httppost := some ctx.post } }

def curl_context.set_post_fields (ctx : curl_context) (sz_fields : std_string) (_size : Int) :
    curl_context :=
  { ctx with opts_ := { ctx.opts_ with postfields := some (sz_fields, _size) } }

def curl_context.get_response_code (ctx : curl_context) : Int := ctx.response_code_info_

def curl_context.set_modified_time (ctx : curl_context) (_last_modified_time : Int) :
    curl_context :=
  { ctx with opts_ := { ctx.opts_ with timecondition := some _last_modified_time } }

def curl_context.get_response (ctx : curl_context) : std_string := ctx.output_

def curl_context.get_header (ctx : curl_context) : std_string := ctx.header_

def curl_context.set_form_field (ctx : curl_context) (_field_name _value : std_string) :
    curl_context :=
  { ctx with post := ctx.post ++ [form_part.field _field_name _value] }

def curl_context.set_form_file (ctx : curl_context) (_field_name _file_name : std_string) :
    curl_context :=
  { ctx with post := ctx.post ++ [form_part.file _field_name _file_name] }

def curl_context.set_form_filedata (ctx : curl_context) (_field_name _file_name _data : std_string) :
    curl_context :=
  { ctx with post := ctx.post ++ [form_part.buffer _field_name _file_name _data] }

/-- The method `curl_context::execute_request`: performs the transfer (the
callbacks fill the buffers), appends the result line to the log, applies the
log transform, writes the log to the network log, and reports whether the
result was `CURLE_OK`. -/
def curl_context.execute_request (env : environment) (ctx : curl_context) (g : process) :
    Bool × curl_context × process :=
  let t := env.curl_easy_perform g.performed.length ctx.opts_
  let ctx := { ctx with
    output_ := ctx.output_ ++ t.body, header_ := ctx.header_ ++ t.header,
    log_data_ := if ctx.is_need_log then ctx.log_data_ ++ t.log else ctx.log_data_,
    response_code_info_ := t.response_code }
  let g := { g with performed := g.performed ++ [(ctx.opts_, t)] }
  let ctx := ctx.write_log_string
    ("curl_easy_perform result is ".toList ++ (Nat.repr t.res).toList ++ ['\n'])
  let ctx := { ctx with log_data_ := ctx.replace_log_function_ ctx.log_data_ }
  let g := { g with network_log := g.network_log ++ [ctx.log_data_] }
  (t.res == 0, ctx, g)

def curl_context.set_custom_header_params (ctx : curl_context) (_params : List std_string) :
    curl_context :=
  let header_chunk_ := ctx.header_chunk_ ++ _params
  let ctx := { ctx with header_chunk_ := header_chunk_ }
  if header_chunk_ ≠ [] then { ctx with opts_ := { ctx.opts_ with httpheader := header_chunk_ } }
  else ctx

/-! ## Callback adapters -/

/-- The percentage of line 389, `(int32_t)((NowDownloaded * 100) / TotalToDownload)`.
The two sizes are byte counts, so the quotient is taken on integers; the
conversion to `int32_t` truncates towards zero. -/
def bytes_transferred_pct (TotalToDownload NowDownloaded : Int) : Int :=
  (NowDownloaded * 100).tdiv TotalToDownload

/-- The adapter `progress_callback`, polled at time `now`: the value returned
to the engine and the context afterwards.  A call of `progress_func_` is
recorded at the end of `progress_calls_`. -/
def progress_callback (cntx : curl_context) (now : Nat) (TotalToDownload NowDownloaded : Int) :
    Int × curl_context :=
  let stop := match cntx.stop_func_ with
    | some stop_func_ => stop_func_ now
    | none => false
  if stop then (-1, cntx)
  else
    let file_too_small := decide (TotalToDownload ≤ 1)
    let skip_progress := file_too_small || !cntx.progress_func_
    if skip_progress then (0, cntx)
    else
      let pct := bytes_transferred_pct TotalToDownload NowDownloaded
      let percentage_updated := decide (pct ≠ cntx.bytes_transferred_pct_)
      if !percentage_updated then (0, cntx)
      else
        let cntx := { cntx with bytes_transferred_pct_ := pct }
        let cntx := { cntx with
          progress_calls_ := cntx.progress_calls_ ++ [(TotalToDownload, NowDownloaded, pct)] }
        (0, cntx)

def default_http_connect_timeout : Int := 15000

def default_http_execute_timeout : Int := 15000

/-- The request entity `http_request_simple`.  The maps hold their entries
in iteration order; a form file datum is (name, file name, bytes of the
stream). -/
structure http_request_simple where
  stop_func_ : Option (Nat → Bool)
  progress_func_ : Bool
  output_ : std_string
  header_ : std_string
  response_code_ : Int
  is_time_condition_ : Bool
  last_modified_time_ : Int
  post_data_ : Option std_string
  post_data_size_ : Int
  copy_post_data_ : Bool
  timeout_ : Int
  connect_timeout_ : Int
  range_from_ : Int
  range_to_ : Int
  is_post_form_ : Bool
  need_log_ : Bool
  keep_alive_ : Bool
  proxy_settings_ : proxy_settings
  user_agent_ : std_string
  replace_log_function_ : std_string → std_string
  post_parameters_ : List (std_string × std_string)
  post_form_parameters_ : List (std_string × std_string)
  post_form_files_ : List (std_string × std_string)
  post_form_filedatas_ : List (std_string × std_string × std_string)
  custom_headers_ : List std_string
  url_ : std_string

/-- The constructor of `http_request_simple`.  The member `response_code_`
has no initialiser; `indeterminate` is the value it happens to hold. -/
def http_request_simple.create (_proxy_settings : proxy_settings) (_user_agent : std_string)
    (_stop_func : Option (Nat → Bool)) (_progress_func : Bool) (indeterminate : Int) :
    http_request_simple :=
  { stop_func_ := _stop_func, progress_func_ := _progress_func, output_ := [], header_ := [],
    response_code_ := indeterminate, is_time_condition_ := false, last_modified_time_ := 0,
    post_data_ := none, post_data_size_ := 0, copy_post_data_ := false,
    timeout_ := default_http_execute_timeout, connect_timeout_ := default_http_connect_timeout,
    range_from_ := -1, range_to_ := -1, is_post_form_ := false, need_log_ := true,
    keep_alive_ := false, proxy_settings_ := _proxy_settings, user_agent_ := _user_agent,
    replace_log_function_ := fun s => s, post_parameters_ := [], post_form_parameters_ := [],
    post_form_files_ := [], post_form_filedatas_ := [], custom_headers_ := [], url_ := [] }

namespace http_request_simple

def set_need_log (self : http_request_simple) (_need : Bool) : http_request_simple :=
  { self with need_log_ := _need }

def push_post_parameter (self : http_request_simple) (name value : std_string) :
    http_request_simple :=
  { self with post_parameters_ := map_assign name value self.post_parameters_ }

def push_post_form_parameter (self : http_request_simple) (name value : std_string) :
    http_request_simple :=
  { self with post_form_parameters_ := map_assign name value self.post_form_parameters_ }

def set_url (self : http_request_simple) (url : std_string) : http_request_simple :=
  { self with url_ := url }

def set_modified_time_condition (self : http_request_simple) (_modified_time : Int) :
    http_request_simple :=
  { self with is_time_condition_ := true, last_modified_time_ := _modified_time }

def set_connect_timeout (self : http_request_simple) (_timeout_ms : Int) : http_request_simple :=
  { self with connect_timeout_ := _timeout_ms }

def set_timeout (self : http_request_simple) (_timeout_ms : Int) : http_request_simple :=
  { self with timeout_ := _timeout_ms }

/-- The loop of `get_post_param` over the entries from an iterator on;
`at_begin` tells whether the iterator is `begin()`, `ss_post_params` is the
stream written so far. -/
def get_post_param_loop : Bool → List (std_string × std_string) → std_string → std_string
  | _, [], ss_post_params => ss_post_params
  | at_begin, (first, second) :: rest, ss_post_params =>
    let ss_post_params := if !at_begin then ss_post_params ++ ['&'] else ss_post_params
    let ss_post_params := ss_post_params ++ first
    let ss_post_params := if second ≠ [] then ss_post_params ++ ['='] ++ second
      else ss_post_params
    get_post_param_loop false rest ss_post_params

def get_post_param (self : http_request_simple) : std_string :=
  if self.post_parameters_ ≠ [] then get_post_param_loop true self.post_parameters_ []
  else []

def clear_post_data (self : http_request_simple) : http_request_simple :=
  { self with copy_post_data_ := false, post_data_ := none, post_data_size_ := 0 }

def set_post_data (self : http_request_simple) (_data : std_string) (_size : Int)
    (_copy_post_data : Bool) : http_request_simple :=
  let self := self.clear_post_data
  { self with copy_post_data_ := _copy_post_data, post_data_size_ := _size,
              post_data_ := some _data }

/-- The method `set_post_params`: the url-encoded parameters become the
post data, the form parts are added to the context, then the post fields and
the post mode are set. -/
def set_post_params (self : http_request_simple) (_ctx : curl_context) :
    http_request_simple × curl_context :=
  let post_params := self.get_post_param
  let self := if post_params ≠ [] then self.set_post_data post_params post_params.length true
    else self
  let _ctx := self.post_form_parameters_.foldl
    (fun c kv => if kv.2 ≠ [] then c.set_form_field kv.1 kv.2 else c) _ctx
  let _ctx := self.post_form_files_.foldl (fun c kv => c.set_form_file kv.1 kv.2) _ctx
  let _ctx := self.post_form_filedatas_.foldl
    (fun c kv => c.set_form_filedata kv.1 kv.2.1 kv.2.2) _ctx
  let _ctx := match self.post_data_ with
    | some d => if self.post_data_size_ ≠ 0 then _ctx.set_post_fields d self.post_data_size_
      else _ctx
    | none => _ctx
  let _ctx := if self.is_post_form_ then _ctx.set_http_post else _ctx.set_post
  (self, _ctx)

/-- Lines 636 to 664 of `send_request`: the context is built, initialised
with the proxy in effect and given the parameters of the request.  The first
component is false when `init` fails. -/
def prepare (env : environment) (thread_id : Nat) (_post switch_proxy : Bool) (g : process)
    (self : http_request_simple) : Bool × curl_context × process × http_request_simple :=
  let cg := curl_context.create thread_id g self.stop_func_ self.progress_func_ self.keep_alive_
  let ctx := cg.1
  let g := cg.2
  let is_user_proxy := self.proxy_settings_.proxy_type_ ≠ env.auto_proxy
  let current_proxy := if switch_proxy then g.registry_proxy_settings else g.auto_proxy_settings
  let current_proxy := if is_user_proxy then self.proxy_settings_ else current_proxy
  let ic := ctx.init env self.connect_timeout_ self.timeout_ current_proxy self.user_agent_
  if !ic.1 then (false, ic.2, g, self)
  else
    let ctx := ic.2
    let sc := if _post then self.set_post_params ctx else (self, ctx)
    let self := sc.1
    let ctx := sc.2
    let ctx := if self.is_time_condition_ then ctx.set_modified_time self.last_modified_time_
      else ctx
    let ctx := if self.range_from_ ≥ 0 ∧ self.range_to_ > 0 then
      ctx.set_range self.range_from_ self.range_to_ else ctx
    let ctx := ctx.set_need_log self.need_log_
    let ctx := ctx.set_custom_header_params self.custom_headers_
    let ctx := ctx.set_url self.url_
    let ctx := ctx.set_replace_log_function self.replace_log_function_
    (true, ctx, g, self)

/-- The method `send_request`, called by thread `thread_id`: the value
returned, the process and the entity afterwards. -/
def send_request (env : environment) (thread_id : Nat) (_post : Bool) (switch_proxy : Bool)
    (g : process) (self : http_request_simple) : Bool × process × http_request_simple :=
  match prepare env thread_id _post switch_proxy g self with
  | (false, _, g, self) => (false, g, self)
  | (true, ctx, g, self) =>
    let is_user_proxy := self.proxy_settings_.proxy_type_ ≠ env.auto_proxy
    if is_user_proxy then
      match ctx.execute_request env g with
      | (false, _, g) => (false, g, self)
      | (true, ctx, g) =>
        (true, g, { self with response_code_ := ctx.get_response_code,
                              output_ := ctx.get_response, header_ := ctx.get_header })
    else
      match ctx.execute_request env g with
      | (false, _, g) =>
        if g.first then
          if _h : switch_proxy = true then (false, g, self)
          else send_request env thread_id _post true g self
        else (false, g, self)
      | (true, ctx, g) =>
        let g := { g with first := false }
        let g := if switch_proxy then
          let ra := env.switch_proxy_settings (g.registry_proxy_settings, g.auto_proxy_settings)
          { g with registry_proxy_settings := ra.1, auto_proxy_settings := ra.2,
                   switched := g.switched + 1 }
          else g
        (true, g, { self with response_code_ := ctx.get_response_code,
                              output_ := ctx.get_response, header_ := ctx.get_header })
termination_by (if switch_proxy then 0 else 1)
decreasing_by simp_all

def post (env : environment) (thread_id : Nat) (g : process) (self : http_request_simple) :
    Bool × process × http_request_simple :=
  send_request env thread_id true false g self

def get (env : environment) (thread_id : Nat) (g : process) (self : http_request_simple) :
    Bool × process × http_request_simple :=
  send_request env thread_id false false g self

def set_range (self : http_request_simple) (_from _to : Int) : http_request_simple :=
  { self with range_from_ := _from, range_to_ := _to }

def get_response (self : http_request_simple) : std_string := self.output_

def get_header (self : http_request_simple) : std_string := self.header_

def get_response_code (self : http_request_simple) : Int := self.response_code_

def set_custom_header_param (self : http_request_simple) (_value : std_string) :
    http_request_simple :=
  { self with custom_headers_ := self.custom_headers_ ++ [_value] }

def set_post_form (self : http_request_simple) (_is_post_form : Bool) : http_request_simple :=
  { self with is_post_form_ := _is_post_form }

def set_keep_alive (self : http_request_simple) : http_request_simple :=
  if self.keep_alive_ then self
  else
    let self := { self with keep_alive_ := true }
    { self with custom_headers_ := self.custom_headers_ ++ ["Connection: keep-alive".toList] }

def get_post_url (self : http_request_simple) : std_string :=
  self.url_ ++ ['?'] ++ self.get_post_param

def get_user_proxy (self : http_request_simple) : proxy_settings := self.proxy_settings_

/-- The loop of `replace_host` from `pos_end` on with `ss_host` collected so
far: the host collected and the position at which the loop stops.  Each
round needs `pos_end < url_.length()` and moves `pos_end` up by one, so the
loop makes at most `url_.length()` rounds; `rounds` bounds their number. -/
def replace_host_loop (url_ : std_string) : Nat → Nat → std_string → std_string × Nat
  | 0, pos_end, ss_host => (ss_host, pos_end)
  | rounds + 1, pos_end, ss_host =>
    if string_at url_ pos_end ≠ '/' ∧ string_at url_ pos_end ≠ '?' ∧
        string_at url_ pos_end ≠ ':' ∧ pos_end < url_.length then
      replace_host_loop url_ rounds (pos_end + 1) (ss_host ++ [string_at url_ pos_end])
    else (ss_host, pos_end)

/-- The method `replace_host`; `get_host_alt` is the lookup
`hosts_map::get_host_alt` of the map passed in.  The test
`pos_prot >= url_.length()` holds for `npos`, the largest value of `size_t`. -/
def replace_host (self : http_request_simple) (get_host_alt : std_string → std_string) :
    http_request_simple :=
  let pos_prot := string_find self.url_ [':', '/', '/']
  let pos_start := match pos_prot with
    | some p => p + 3
    | none => 0
  let past_end := match pos_prot with
    | some p => decide (p ≥ self.url_.length)
    | none => true
  if past_end then self
  else
    let hp := replace_host_loop self.url_ self.url_.length pos_start []
    let host := hp.1
    let pos_end := hp.2
    if host = [] then self
    else { self with url_ := string_replace self.url_ pos_start (pos_end - pos_start)
                               (get_host_alt host) }

end http_request_simple

/-- The four proxy options of a handle: `CURLOPT_PROXY`, `CURLOPT_PROXYPORT`,
`CURLOPT_PROXYTYPE` and `CURLOPT_PROXYUSERPWD`. -/
def easy_options.proxy_part (o : easy_options) :
    Option std_string × Option Int × Option Int × Option std_string :=
  (o.proxy, o.proxyport, o.proxytype, o.proxyuserpwd)

/-- The proxy options a request runs with when `init` was given the settings
`p`: those `proxy_options` puts on a handle that carries none. -/
def configured_proxy (env : environment) (p : proxy_settings) :
    Option std_string × Option Int × Option Int × Option std_string :=
  (proxy_options env p easy_options.unset).proxy_part

/-- One call of `send_request` as the process sees it: the calling thread,
the two arguments and the entity it is made on. -/
structure send_request_call where
  thread_id : Nat
  _post : Bool
  switch_proxy : Bool
  self : http_request_simple

/-- The call carried out on a process. -/
def send_request_call.run (env : environment) (c : send_request_call) (g : process) :
    Bool × process × http_request_simple :=
  c.self.send_request env c.thread_id c._post c.switch_proxy g

/-- The process after a sequence of `send_request` calls, made one after the
other. -/
def run_calls (env : environment) : List send_request_call → process → process
  | [], g => g
  | c :: rest, g => run_calls env rest (c.run env g).2.1

/-! ## Reference definitions -/

/-- The string cut after the first occurrence of `pat`: everything through
that occurrence and the rest, `none` when `pat` does not occur. -/
def split_after_first (pat : std_string) : std_string → Option (std_string × std_string)
  | [] => if pat.isPrefixOf [] then some (pat, []) else none
  | c :: rest =>
    if pat.isPrefixOf (c :: rest) then some (pat, (c :: rest).drop pat.length)
    else (split_after_first pat rest).map (fun ab => (c :: ab.1, ab.2))

/-- The characters that end the host segment of a URL. -/
def is_host_delimiter (c : Char) : Bool := c = '/' || c = '?' || c = ':'

/-- The host rewrite as the specification words it: with `h` the segment
from just after the first `://` up to the first `/`, `?` or `:` (or the end),
a URL with `://` and non-empty `h` becomes everything through `://`, then
`alt h`, then the rest from the delimiter on; any other URL stays. -/
def replace_host_reference (alt : std_string → std_string) (url : std_string) : std_string :=
  match split_after_first [':', '/', '/'] url with
  | none => url
  | some (through, rest) =>
    let h := rest.takeWhile (fun c => !is_host_delimiter c)
    if h = [] then url
    else through ++ alt h ++ rest.dropWhile (fun c => !is_host_delimiter c)

/-- One post parameter as the specification renders it: `key=value`, or the
bare key when the value is empty. -/
def render_post_parameter (kv : std_string × std_string) : std_string :=
  if kv.2 = [] then kv.1 else kv.1 ++ ['='] ++ kv.2

/-- The strings of a list joined by a separator character. -/
def join_with (sep : Char) : List std_string → std_string
  | [] => []
  | [x] => x
  | x :: y :: rest => x ++ sep :: join_with sep (y :: rest)

/-- The encoding of a parameter set as the specification words it: the
entries, in the order given, rendered and joined by `&`. -/
def post_param_reference (entries : List (std_string × std_string)) : std_string :=
  join_with '&' (entries.map render_post_parameter)

/-- A string split at every occurrence of a separator character. -/
def split_on (sep : Char) : std_string → List std_string
  | [] => [[]]
  | c :: rest =>
    if c = sep then [] :: split_on sep rest
    else
      match split_on sep rest with
      | [] => [[c]]
      | seg :: segs => (c :: seg) :: segs

/-- The keys read back from an encoded body as the specification words it:
the body is split on `&` and the key of a segment is its part before the
first `=`.  An empty body holds no segment. -/
def parse_post_keys (body : std_string) : List std_string :=
  if body = [] then []
  else (split_on '&' body).map (fun seg => seg.takeWhile (fun c => c ≠ '='))

/-- The entity after `push_post_parameter` was called for each pair of a
list, first to last. -/
def push_post_parameters (ps : List (std_string × std_string)) (self : http_request_simple) :
    http_request_simple :=
  ps.foldl (fun r kv => r.push_post_parameter kv.1 kv.2) self

/-! ## Sample inputs -/

/-- A proxy settings record of a given type, for the sample inputs. -/
def sample_proxy (server : std_string) (proxy_type : Int) : proxy_settings :=
  { use_proxy_ := true, proxy_server_ := server, proxy_port_ := 8080, proxy_type_ := proxy_type,
    need_auth_ := false, login_ := [], password_ := [] }

/-- An environment in which `auto_proxy` is -1 and the first and the fourth
perform of the process fail with code 7 while every other one succeeds with
status 200. -/
def sample_env : environment :=
  { auto_proxy := -1, default_proxy_port := 1080, is_windows := false,
    is_windows_vista_or_late := false,
    curl_easy_perform := fun n _ =>
      { res := if n = 0 ∨ n = 3 then 7 else 0, response_code := 200, body := ['o', 'k'], header := [],
        log := [] },
    switch_proxy_settings := fun ra => (ra.1, ra.1) }

/-- A process at its start with distinct registry and auto settings. -/
def sample_process : process :=
  process.start (sample_proxy ['r'] 0) (sample_proxy ['a'] 0)

/-- A fresh entity without a proxy of its own. -/
def sample_auto_request : http_request_simple :=
  http_request_simple.create (sample_proxy [] (-1)) ['u', 'a'] none false 0

/-- A fresh entity with a proxy of its own. -/
def sample_user_request : http_request_simple :=
  http_request_simple.create (sample_proxy ['u'] 5) ['u', 'a'] none false 0

/-- A `get()` on the sample auto-proxy entity by thread 0. -/
def sample_auto_call : send_request_call :=
  { thread_id := 0, _post := false, switch_proxy := false, self := sample_auto_request }

/-- A `post()` on the sample entity with a proxy of its own by thread 1. -/
def sample_user_call : send_request_call :=
  { thread_id := 1, _post := true, switch_proxy := false, self := sample_user_request }

/-- The alias lookup that knows `old.example.com` as `new.example.com` and
maps every other host to itself. -/
def sample_host_alt (host : std_string) : std_string :=
  if host = "old.example.com".toList then "new.example.com".toList else host

/-- An environment like `sample_env` in which the first perform of the
process succeeds with status 200 and body `ok` and every later one fails
with code 7 and delivers nothing. -/
def sample_env_failing_later : environment :=
  { auto_proxy := -1, default_proxy_port := 1080, is_windows := false,
    is_windows_vista_or_late := false,
    curl_easy_perform := fun n _ =>
      if n = 0 then
        { res := 0, response_code := 200, body := ['o', 'k'], header := ['h'], log := [] }
      else { res := 7, response_code := 0, body := [], header := [], log := [] },
    switch_proxy_settings := fun ra => ra }

/-! # Properties -/

/-! ## Lemmas on maps -/

theorem mem_map_assign {κ ν : Type} [LinearOrder κ] (k : κ) (v : ν) (m : List (κ × ν))
    (e : κ × ν) (he : e ∈ map_assign k v m) : e = (k, v) ∨ e ∈ m := by
  induction m with
  | nil =>
    simp only [map_assign, List.mem_singleton] at he
    exact Or.inl he
  | cons a rest ih =>
    obtain ⟨k', v'⟩ := a
    unfold map_assign at he
    split_ifs at he with h1 h2
    · rcases List.mem_cons.1 he with h | h
      · exact Or.inl h
      · exact Or.inr h
    · rcases List.mem_cons.1 he with h | h
      · exact Or.inl h
      · exact Or.inr (List.mem_cons_of_mem _ h)
    · rcases List.mem_cons.1 he with h | h
      · exact Or.inr (by rw [h]; exact List.mem_cons_self _ _)
      · rcases ih h with h | h
        · exact Or.inl h
        · exact Or.inr (List.mem_cons_of_mem _ h)

/-- The assignment keeps a map in strictly ascending key order. -/
theorem map_assign_sorted {κ ν : Type} [LinearOrder κ] (k : κ) (v : ν) (m : List (κ × ν))
    (hm : m.Pairwise (fun a b => a.1 < b.1)) :
    (map_assign k v m).Pairwise (fun a b => a.1 < b.1) := by
  induction m with
  | nil => simp [map_assign]
  | cons a rest ih =>
    obtain ⟨k', v'⟩ := a
    rw [List.pairwise_cons] at hm
    unfold map_assign
    split_ifs with h1 h2
    · rw [List.pairwise_cons]
      refine ⟨?_, List.pairwise_cons.2 hm⟩
      intro b hb
      rcases List.mem_cons.1 hb with h | h
      · rw [h]; exact h1
      · exact lt_trans h1 (hm.1 b h)
    · rw [List.pairwise_cons]
      refine ⟨?_, hm.2⟩
      intro b hb
      rw [h2]
      exact hm.1 b hb
    · rw [List.pairwise_cons]
      refine ⟨?_, ih hm.2⟩
      intro b hb
      rcases mem_map_assign k v rest b hb with h | h
      · rw [h]
        exact lt_of_le_of_ne (not_lt.1 h1) (Ne.symm h2)
      · exact hm.1 b h

/-- After the assignment the key holds the value assigned and every other
key holds what it held. -/
theorem map_find_map_assign {κ ν : Type} [LinearOrder κ] [DecidableEq κ] (k k' : κ) (v : ν)
    (m : List (κ × ν)) :
    map_find k (map_assign k' v m) = if k = k' then some v else map_find k m := by
  induction m with
  | nil =>
    by_cases h : k = k' <;> simp [map_assign, map_find, h]
  | cons a rest ih =>
    obtain ⟨k2, v2⟩ := a
    unfold map_assign
    by_cases hk : k = k'
    · subst hk
      by_cases h1 : k < k2
      · simp [map_find, h1]
      · by_cases h2 : k = k2
        · simp [map_find, h1, h2]
        · simp [map_find, h1, h2, ih]
    · by_cases h1 : k' < k2
      · simp [map_find, h1, hk]
      · by_cases h2 : k' = k2
        · subst h2
          simp [map_find, hk]
        · simp [map_find, h1, h2, hk, ih]

theorem map_find_none_of_lt {κ ν : Type} [LinearOrder κ] [DecidableEq κ] (k : κ)
    (m : List (κ × ν)) (h : ∀ e ∈ m, k < e.1) : map_find k m = none := by
  induction m with
  | nil => rfl
  | cons a rest ih =>
    obtain ⟨k2, v2⟩ := a
    have h1 : k ≠ k2 := ne_of_lt (h (k2, v2) (List.mem_cons_self _ _))
    simp only [map_find, h1, if_false]
    exact ih (fun e he => h e (List.mem_cons_of_mem _ he))

/-- After the removal the key holds nothing and every other key holds what
it held, in a map with strictly ascending keys. -/
theorem map_find_map_erase {κ ν : Type} [LinearOrder κ] [DecidableEq κ] (k k' : κ)
    (m : List (κ × ν)) (hm : m.Pairwise (fun a b => a.1 < b.1)) :
    map_find k (map_erase k' m) = if k = k' then none else map_find k m := by
  induction m with
  | nil => simp [map_erase, map_find]
  | cons a rest ih =>
    obtain ⟨k2, v2⟩ := a
    rw [List.pairwise_cons] at hm
    unfold map_erase
    by_cases h1 : k' = k2
    · subst h1
      simp only [if_true]
      by_cases h2 : k = k'
      · subst h2
        simp only [if_true]
        exact map_find_none_of_lt k rest (fun e he => hm.1 e he)
      · simp [map_find, h2]
    · simp only [h1, if_false]
      by_cases h2 : k = k2
      · subst h2
        have : k ≠ k' := Ne.symm h1
        simp [map_find, this]
      · simp [map_find, h2, ih hm.2]

theorem map_erase_sorted {κ ν : Type} [LinearOrder κ] [DecidableEq κ] (k : κ)
    (m : List (κ × ν)) (hm : m.Pairwise (fun a b => a.1 < b.1)) :
    (map_erase k m).Pairwise (fun a b => a.1 < b.1) := by
  induction m with
  | nil => simp [map_erase]
  | cons a rest ih =>
    obtain ⟨k2, v2⟩ := a
    rw [List.pairwise_cons] at hm
    unfold map_erase
    by_cases h1 : k = k2
    · simp only [h1, if_true]
      exact hm.2
    · simp only [h1, if_false]
      rw [List.pairwise_cons]
      refine ⟨?_, ih hm.2⟩
      intro b hb
      have hsub : ∀ (l : List (κ × ν)) (e : κ × ν), e ∈ map_erase k l → e ∈ l := by
        intro l
        induction l with
        | nil => intro e he; simp [map_erase] at he
        | cons c l ihl =>
          intro e he
          unfold map_erase at he
          split_ifs at he
          · exact List.mem_cons_of_mem _ he
          · rcases List.mem_cons.1 he with h | h
            · rw [h]; exact List.mem_cons_self _ _
            · exact List.mem_cons_of_mem _ (ihl e h)
      exact hm.1 b (hsub rest b hb)

/-! ## Lemmas on the request context -/

theorem proxy_options_proxy_part (env : environment) (p : proxy_settings) (o : easy_options)
    (h : o.proxy_part = easy_options.unset.proxy_part) :
    (proxy_options env p o).proxy_part = configured_proxy env p := by
  simp only [easy_options.proxy_part, easy_options.unset, Prod.mk.injEq] at h
  obtain ⟨h1, h2, h3, h4⟩ := h
  unfold configured_proxy proxy_options
  by_cases hu : p.use_proxy_ = true <;> by_cases hp : p.proxy_port_ ≠ env.default_proxy_port <;>
    by_cases ha : p.need_auth_ = true <;>
    simp [hu, hp, ha, easy_options.proxy_part, easy_options.unset, h1, h2, h3, h4]

theorem create_curl (thread_id : Nat) (g : process) (s : Option (Nat → Bool)) (p k : Bool) :
    ∃ h, (curl_context.create thread_id g s p k).1.curl_ = some h := by
  unfold curl_context.create
  cases k
  · simp [curl_easy_init]
  · simp only [if_true]
    unfold get_for_this_thread
    cases map_find thread_id g.handles_ <;> simp [curl_easy_init]

theorem create_process (thread_id : Nat) (g : process) (s : Option (Nat → Bool)) (p k : Bool) :
    (curl_context.create thread_id g s p k).2.performed = g.performed ∧
    (curl_context.create thread_id g s p k).2.first = g.first ∧
    (curl_context.create thread_id g s p k).2.switched = g.switched ∧
    (curl_context.create thread_id g s p k).2.registry_proxy_settings
      = g.registry_proxy_settings ∧
    (curl_context.create thread_id g s p k).2.auto_proxy_settings = g.auto_proxy_settings ∧
    (curl_context.create thread_id g s p k).2.network_log = g.network_log := by
  unfold curl_context.create
  cases k
  · simp [curl_easy_init]
  · simp only [if_true]
    unfold get_for_this_thread
    cases map_find thread_id g.handles_ <;> simp [curl_easy_init]

theorem init_ok (env : environment) (ctx : curl_context) (ct t : Int) (p : proxy_settings)
    (ua : std_string) (h : Nat) (hc : ctx.curl_ = some h)
    (ho : ctx.opts_ = easy_options.unset) :
    (ctx.init env ct t p ua).1 = true ∧
    (ctx.init env ct t p ua).2.opts_.proxy_part = configured_proxy env p ∧
    (ctx.init env ct t p ua).2.opts_.range = none := by
  unfold curl_context.init
  simp only [hc, ho, ite_self, true_and]
  constructor
  · apply proxy_options_proxy_part
    by_cases h1 : t > 0 <;> by_cases h2 : ct > 0 <;>
      simp [h1, h2, easy_options.proxy_part, easy_options.unset]
  · unfold proxy_options
    by_cases hu : p.use_proxy_ = true <;> by_cases hp : p.proxy_port_ ≠ env.default_proxy_port <;>
      by_cases ha : p.need_auth_ = true <;> by_cases h1 : t > 0 <;> by_cases h2 : ct > 0 <;>
      simp [hu, hp, ha, h1, h2, easy_options.unset]

theorem foldl_opts {α : Type} (f : curl_context → α → curl_context)
    (hf : ∀ c a, (f c a).opts_ = c.opts_) (l : List α) (c : curl_context) :
    (l.foldl f c).opts_ = c.opts_ := by
  induction l generalizing c with
  | nil => rfl
  | cons a l ih => rw [List.foldl_cons, ih, hf]

theorem ite_post_mode_proxy (b : Bool) (c : curl_context) :
    (if b = true then c.set_http_post else c.set_post).opts_.proxy_part = c.opts_.proxy_part := by
  cases b <;> rfl

theorem set_post_params_frame (self : http_request_simple) (ctx : curl_context) :
    (self.set_post_params ctx).1.proxy_settings_ = self.proxy_settings_ ∧
    (self.set_post_params ctx).2.opts_.proxy_part = ctx.opts_.proxy_part := by
  unfold http_request_simple.set_post_params
  refine ⟨?_, ?_⟩
  · simp only [http_request_simple.set_post_data, http_request_simple.clear_post_data]
    split <;> rfl
  · have h1 : ∀ (l : List (std_string × std_string)) (c : curl_context),
        (l.foldl (fun c kv => if kv.2 ≠ [] then c.set_form_field kv.1 kv.2 else c) c).opts_
          = c.opts_ :=
      fun l c => foldl_opts _ (fun c a => by
        by_cases h : a.2 ≠ [] <;> simp [h, curl_context.set_form_field]) l c
    have h2 : ∀ (l : List (std_string × std_string)) (c : curl_context),
        (l.foldl (fun c kv => c.set_form_file kv.1 kv.2) c).opts_ = c.opts_ :=
      fun l c => foldl_opts (fun c (kv : std_string × std_string) => c.set_form_file kv.1 kv.2)
        (fun c a => rfl) l c
    have h3 : ∀ (l : List (std_string × std_string × std_string)) (c : curl_context),
        (l.foldl (fun c kv => c.set_form_filedata kv.1 kv.2.1 kv.2.2) c).opts_ = c.opts_ :=
      fun l c => foldl_opts (fun c (kv : std_string × std_string × std_string) =>
        c.set_form_filedata kv.1 kv.2.1 kv.2.2) (fun c a => rfl) l c
    have h4 : ∀ (c : curl_context) (d : std_string) (n : Int),
        (c.set_post_fields d n).opts_.proxy_part = c.opts_.proxy_part := fun _ _ _ => rfl
    simp only []
    rw [ite_post_mode_proxy]
    split
    · split_ifs <;> simp only [h4, h3, h2, h1]
    · split_ifs <;> simp only [h3, h2, h1]

theorem set_custom_header_params_proxy (c : curl_context) (l : List std_string) :
    (c.set_custom_header_params l).opts_.proxy_part = c.opts_.proxy_part := by
  unfold curl_context.set_custom_header_params
  simp only []
  split_ifs <;> rfl

theorem set_url_proxy (c : curl_context) (u : std_string) :
    (c.set_url u).opts_.proxy_part = c.opts_.proxy_part := by
  unfold curl_context.set_url
  simp only []
  split_ifs <;> rfl

/-- The state in which `send_request` reaches its first `execute_request`:
`init` succeeds, the histories, the flag and the settings of the process are
untouched, and the proxy options of the context are those of the proxy in
effect. -/
theorem prepare_spec (env : environment) (thread_id : Nat) (_post sw : Bool) (g : process)
    (self : http_request_simple) :
    ∃ ctx g1 self1, http_request_simple.prepare env thread_id _post sw g self
        = (true, ctx, g1, self1) ∧
      g1.performed = g.performed ∧ g1.first = g.first ∧ g1.switched = g.switched ∧
      g1.registry_proxy_settings = g.registry_proxy_settings ∧
      g1.auto_proxy_settings = g.auto_proxy_settings ∧
      self1.proxy_settings_ = self.proxy_settings_ ∧
      ctx.opts_.proxy_part = configured_proxy env
        (if self.proxy_settings_.proxy_type_ ≠ env.auto_proxy then self.proxy_settings_
         else if sw = true then g.registry_proxy_settings else g.auto_proxy_settings) := by
  obtain ⟨h, hc⟩ := create_curl thread_id g self.stop_func_ self.progress_func_ self.keep_alive_
  obtain ⟨p1, p2, p3, p4, p5, -⟩ :=
    create_process thread_id g self.stop_func_ self.progress_func_ self.keep_alive_
  have ho : (curl_context.create thread_id g self.stop_func_ self.progress_func_
      self.keep_alive_).1.opts_ = easy_options.unset := rfl
  unfold http_request_simple.prepare
  simp only []
  generalize curl_context.create thread_id g self.stop_func_ self.progress_func_
      self.keep_alive_ = cg at *
  generalize hcur : (if self.proxy_settings_.proxy_type_ ≠ env.auto_proxy then
      self.proxy_settings_
    else if sw = true then cg.2.registry_proxy_settings else cg.2.auto_proxy_settings) = cur
  obtain ⟨i1, i2, -⟩ := init_ok env cg.1 self.connect_timeout_ self.timeout_ cur self.user_agent_
    h hc ho
  simp only [i1, Bool.not_true, Bool.false_eq_true, if_false]
  refine ⟨_, _, _, rfl, p1, p2, p3, p4, p5, ?_, ?_⟩
  · cases _post
    · rfl
    · exact (set_post_params_frame self _).1
  · have hsp : (if _post = true then self.set_post_params
        (cg.1.init env self.connect_timeout_ self.timeout_ cur self.user_agent_).2
      else (self, (cg.1.init env self.connect_timeout_ self.timeout_ cur
        self.user_agent_).2)).2.opts_.proxy_part = configured_proxy env cur := by
      cases _post
      · exact i2
      · exact (set_post_params_frame self _).2.trans i2
    rw [← p4, ← p5, hcur, ← hsp]
    show (curl_context.set_replace_log_function _ _).opts_.proxy_part = _
    unfold curl_context.set_replace_log_function
    show (curl_context.set_url _ _).opts_.proxy_part = _
    rw [set_url_proxy, set_custom_header_params_proxy]
    unfold curl_context.set_need_log
    simp only []
    split_ifs <;> rfl

theorem execute_request_spec (env : environment) (ctx : curl_context) (g : process) :
    (ctx.execute_request env g).1
      = ((env.curl_easy_perform g.performed.length ctx.opts_).res == 0) ∧
    (ctx.execute_request env g).2.2.performed
      = g.performed ++ [(ctx.opts_, env.curl_easy_perform g.performed.length ctx.opts_)] ∧
    (ctx.execute_request env g).2.2.first = g.first ∧
    (ctx.execute_request env g).2.2.switched = g.switched ∧
    (ctx.execute_request env g).2.2.registry_proxy_settings = g.registry_proxy_settings ∧
    (ctx.execute_request env g).2.2.auto_proxy_settings = g.auto_proxy_settings :=
  ⟨rfl, rfl, rfl, rfl, rfl, rfl⟩

/-- One step of `send_request` after the context is prepared, for an entity
with a proxy of its own. -/
theorem send_request_user (env : environment) (thread_id : Nat) (_post sw : Bool) (g : process)
    (self : http_request_simple) (ctx : curl_context) (g1 : process)
    (self1 : http_request_simple)
    (hp : http_request_simple.prepare env thread_id _post sw g self = (true, ctx, g1, self1))
    (hu : self1.proxy_settings_.proxy_type_ ≠ env.auto_proxy) :
    (self.send_request env thread_id _post sw g).1 = (ctx.execute_request env g1).1 ∧
    (self.send_request env thread_id _post sw g).2.1 = (ctx.execute_request env g1).2.2 := by
  rw [http_request_simple.send_request, hp]
  simp only [hu, ne_eq, not_false_eq_true, if_true]
  rcases he : ctx.execute_request env g1 with ⟨b, c, g2⟩
  cases b <;> simp

/-- One step of `send_request` for an auto-proxy entity whose execution
succeeds. -/
theorem send_request_auto_ok (env : environment) (thread_id : Nat) (_post sw : Bool)
    (g : process) (self : http_request_simple) (ctx : curl_context) (g1 : process)
    (self1 : http_request_simple)
    (hp : http_request_simple.prepare env thread_id _post sw g self = (true, ctx, g1, self1))
    (ha : self1.proxy_settings_.proxy_type_ = env.auto_proxy)
    (hok : (ctx.execute_request env g1).1 = true) :
    (self.send_request env thread_id _post sw g).1 = true ∧
    (self.send_request env thread_id _post sw g).2.1.performed
      = (ctx.execute_request env g1).2.2.performed ∧
    (self.send_request env thread_id _post sw g).2.1.first = false ∧
    (self.send_request env thread_id _post sw g).2.1.switched
      = (ctx.execute_request env g1).2.2.switched + (if sw = true then 1 else 0) := by
  rw [http_request_simple.send_request, hp]
  simp only [ha, ne_eq, not_true_eq_false, if_false]
  rcases he : ctx.execute_request env g1 with ⟨b, c, g2⟩
  rw [he] at hok
  simp only at hok
  subst hok
  cases sw <;> simp

/-- One step of `send_request` for an auto-proxy entity whose execution
fails when no fallback is due: the call was a fallback attempt itself or the
flag `first` is down. -/
theorem send_request_auto_fail (env : environment) (thread_id : Nat) (_post sw : Bool)
    (g : process) (self : http_request_simple) (ctx : curl_context) (g1 : process)
    (self1 : http_request_simple)
    (hp : http_request_simple.prepare env thread_id _post sw g self = (true, ctx, g1, self1))
    (ha : self1.proxy_settings_.proxy_type_ = env.auto_proxy)
    (hok : (ctx.execute_request env g1).1 = false)
    (hstop : sw = true ∨ (ctx.execute_request env g1).2.2.first = false) :
    (self.send_request env thread_id _post sw g).1 = false ∧
    (self.send_request env thread_id _post sw g).2.1 = (ctx.execute_request env g1).2.2 := by
  rw [http_request_simple.send_request, hp]
  simp only [ha, ne_eq, not_true_eq_false, if_false]
  rcases he : ctx.execute_request env g1 with ⟨b, c, g2⟩
  rw [he] at hok hstop
  simp only at hok hstop
  subst hok
  rcases hstop with h | h
  · subst h
    by_cases hf : g2.first = true <;> simp [hf]
  · simp [h]

/-- One step of `send_request` for an auto-proxy entity whose execution
fails while `first` is up and the call is not a fallback attempt: the call
continues as `send_request(_post, true)`. -/
theorem send_request_auto_retry (env : environment) (thread_id : Nat) (_post : Bool)
    (g : process) (self : http_request_simple) (ctx : curl_context) (g1 : process)
    (self1 : http_request_simple)
    (hp : http_request_simple.prepare env thread_id _post false g self = (true, ctx, g1, self1))
    (ha : self1.proxy_settings_.proxy_type_ = env.auto_proxy)
    (hok : (ctx.execute_request env g1).1 = false)
    (hfirst : (ctx.execute_request env g1).2.2.first = true) :
    self.send_request env thread_id _post false g
      = self1.send_request env thread_id _post true (ctx.execute_request env g1).2.2 := by
  rw [http_request_simple.send_request, hp]
  simp only [ha, ne_eq, not_true_eq_false, if_false]
  rcases he : ctx.execute_request env g1 with ⟨b, c, g2⟩
  rw [he] at hok hfirst
  simp only at hok hfirst
  subst hok
  simp [hfirst]

/-! ## Proxy fallback -/

/-- The three ways a call of `send_request` on an auto-proxy entity can go:
one successful execution, one failed execution without fallback, or a failed
execution followed by the fallback execution. -/
theorem send_request_auto_cases (env : environment) (thread_id : Nat) (_post sw : Bool)
    (g : process) (self : http_request_simple)
    (hauto : self.proxy_settings_.proxy_type_ = env.auto_proxy) :
    ∃ o1 : easy_options,
      (env.curl_easy_perform g.performed.length o1).res = 0 ∧
        (self.send_request env thread_id _post sw g).1 = true ∧
        (self.send_request env thread_id _post sw g).2.1.performed
          = g.performed ++ [(o1, env.curl_easy_perform g.performed.length o1)] ∧
        (self.send_request env thread_id _post sw g).2.1.first = false ∧
        (self.send_request env thread_id _post sw g).2.1.switched
          = g.switched + (if sw = true then 1 else 0)
      ∨
      (env.curl_easy_perform g.performed.length o1).res ≠ 0 ∧
        (sw = true ∨ g.first = false) ∧
        (self.send_request env thread_id _post sw g).1 = false ∧
        (self.send_request env thread_id _post sw g).2.1.performed
          = g.performed ++ [(o1, env.curl_easy_perform g.performed.length o1)] ∧
        (self.send_request env thread_id _post sw g).2.1.first = g.first ∧
        (self.send_request env thread_id _post sw g).2.1.switched = g.switched
      ∨
      (env.curl_easy_perform g.performed.length o1).res ≠ 0 ∧ sw = false ∧ g.first = true ∧
        ∃ o2 : easy_options,
          (self.send_request env thread_id _post sw g).2.1.performed
            = g.performed ++ [(o1, env.curl_easy_perform g.performed.length o1),
                (o2, env.curl_easy_perform (g.performed.length + 1) o2)] ∧
          (self.send_request env thread_id _post sw g).1
            = ((env.curl_easy_perform (g.performed.length + 1) o2).res == 0) ∧
          (self.send_request env thread_id _post sw g).2.1.first
            = !((env.curl_easy_perform (g.performed.length + 1) o2).res == 0) ∧
          (self.send_request env thread_id _post sw g).2.1.switched
            = g.switched + (if (env.curl_easy_perform (g.performed.length + 1) o2).res = 0
                then 1 else 0) := by
  obtain ⟨ctx, g1, self1, hp, q1, q2, q3, q4, q5, q6, -⟩ :=
    prepare_spec env thread_id _post sw g self
  obtain ⟨x1, x2, x3, x4, x5, x6⟩ := execute_request_spec env ctx g1
  have ha1 : self1.proxy_settings_.proxy_type_ = env.auto_proxy := by rw [q6]; exact hauto
  rw [q1] at x1 x2
  refine ⟨ctx.opts_, ?_⟩
  by_cases hok : (ctx.execute_request env g1).1 = true
  · left
    obtain ⟨y1, y2, y3, y4⟩ := send_request_auto_ok env thread_id _post sw g self ctx g1 self1
      hp ha1 hok
    rw [x1] at hok
    exact ⟨by simpa using hok, y1, by rw [y2, x2], y3, by rw [y4, x4, q3]⟩
  · have hok0 : (ctx.execute_request env g1).1 = false := by simpa using hok
    have hres : (env.curl_easy_perform g.performed.length ctx.opts_).res ≠ 0 := by
      rw [x1] at hok0
      simpa using hok0
    right
    by_cases hstop : sw = true ∨ g.first = false
    · left
      have hs : sw = true ∨ (ctx.execute_request env g1).2.2.first = false := by
        rw [x3, q2]; exact hstop
      obtain ⟨y1, y2⟩ := send_request_auto_fail env thread_id _post sw g self ctx g1 self1 hp
        ha1 hok0 hs
      exact ⟨hres, hstop, y1, by rw [y2, x2], by rw [y2, x3, q2], by rw [y2, x4, q3]⟩
    · right
      have hsw : sw = false := by
        cases sw
        · rfl
        · exact absurd (Or.inl rfl) hstop
      have hfirst : g.first = true := by
        cases hf : g.first
        · exact absurd (Or.inr hf) hstop
        · rfl
      subst hsw
      have hf1 : (ctx.execute_request env g1).2.2.first = true := by rw [x3, q2, hfirst]
      rw [send_request_auto_retry env thread_id _post g self ctx g1 self1 hp ha1 hok0 hf1]
      generalize hg2 : (ctx.execute_request env g1).2.2 = g2 at *
      obtain ⟨ctx2, g3, self2, hp2, r1, r2, r3, r4, r5, r6, -⟩ :=
        prepare_spec env thread_id _post true g2 self1
      obtain ⟨z1, z2, z3, z4, z5, z6⟩ := execute_request_spec env ctx2 g3
      have ha2 : self2.proxy_settings_.proxy_type_ = env.auto_proxy := by rw [r6]; exact ha1
      have hlen : g3.performed.length = g.performed.length + 1 := by
        rw [r1, x2]; simp
      rw [hlen] at z1 z2
      have hperf : (ctx2.execute_request env g3).2.2.performed
          = g.performed ++ [(ctx.opts_, env.curl_easy_perform g.performed.length ctx.opts_),
            (ctx2.opts_, env.curl_easy_perform (g.performed.length + 1) ctx2.opts_)] := by
        rw [z2, r1, x2]; simp
      refine ⟨hres, rfl, hfirst, ctx2.opts_, ?_⟩
      by_cases hok2 : (ctx2.execute_request env g3).1 = true
      · obtain ⟨y1, y2, y3, y4⟩ := send_request_auto_ok env thread_id _post true g2 self1 ctx2
          g3 self2 hp2 ha2 hok2
        rw [z1] at hok2
        have hres2 : (env.curl_easy_perform (g.performed.length + 1) ctx2.opts_).res = 0 := by
          simpa using hok2
        refine ⟨by rw [y2, hperf], by rw [y1, hok2], by rw [y3, hok2]; rfl, ?_⟩
        rw [y4, z4, r3, x4, q3, hres2]
        simp
      · have hok2f : (ctx2.execute_request env g3).1 = false := by simpa using hok2
        obtain ⟨y1, y2⟩ := send_request_auto_fail env thread_id _post true g2 self1 ctx2 g3
          self2 hp2 ha2 hok2f (Or.inl rfl)
        rw [z1] at hok2f
        have hres2 : (env.curl_easy_perform (g.performed.length + 1) ctx2.opts_).res ≠ 0 := by
          simpa using hok2f
        refine ⟨by rw [y2, hperf], by rw [y1, hok2f], ?_, ?_⟩
        · rw [y2, z3, r2, x3, q2, hfirst, hok2f]; rfl
        · rw [y2, z4, r3, x4, q3, if_neg hres2]; rfl

/-- Once the flag `first` is down, no call of `send_request` raises it. -/
theorem send_request_first_stays_down (env : environment) (thread_id : Nat) (_post sw : Bool)
    (g : process) (self : http_request_simple) (hdown : g.first = false) :
    (self.send_request env thread_id _post sw g).2.1.first = false := by
  by_cases hauto : self.proxy_settings_.proxy_type_ = env.auto_proxy
  · obtain ⟨o1, h | h | h⟩ := send_request_auto_cases env thread_id _post sw g self hauto
    · exact h.2.2.2.1
    · rw [h.2.2.2.2.1, hdown]
    · rw [hdown] at h
      exact absurd h.2.2.1 (by simp)
  · obtain ⟨ctx, g1, self1, hp, -, q2, -, -, -, q6, -⟩ :=
      prepare_spec env thread_id _post sw g self
    have hu1 : self1.proxy_settings_.proxy_type_ ≠ env.auto_proxy := by rw [q6]; exact hauto
    rw [(send_request_user env thread_id _post sw g self ctx g1 self1 hp hu1).2,
      (execute_request_spec env ctx g1).2.2.1, q2, hdown]

theorem run_calls_first_stays_down (env : environment) (calls : List send_request_call)
    (g : process) (hdown : g.first = false) : (run_calls env calls g).first = false := by
  induction calls generalizing g with
  | nil => exact hdown
  | cons c rest ih =>
    exact ih _ (send_request_first_stays_down env c.thread_id c._post c.switch_proxy g c.self
      hdown)

/-- C3: retry once per process.  When a call of `send_request` on an
auto-proxy entity has returned true (an auto-proxy execution has succeeded),
the flag `first` is down after it and is down after every sequence of later
`send_request` calls, and every later call on an auto-proxy entity whose
execution fails makes exactly one execution, returns false and leaves the
flag down. -/
theorem retry_once_per_process (env : environment) (g : process) (c0 : send_request_call)
    (later : List send_request_call)
    (hauto0 : c0.self.proxy_settings_.proxy_type_ = env.auto_proxy)
    (hsucc : (c0.run env g).1 = true) :
    (c0.run env g).2.1.first = false ∧
    (run_calls env later (c0.run env g).2.1).first = false ∧
    ∀ c : send_request_call, c.self.proxy_settings_.proxy_type_ = env.auto_proxy →
      (∃ e, (c.run env (run_calls env later (c0.run env g).2.1)).2.1.performed[
          (run_calls env later (c0.run env g).2.1).performed.length]? = some e ∧ e.2.res ≠ 0) →
      (c.run env (run_calls env later (c0.run env g).2.1)).1 = false ∧
      (∃ e, (c.run env (run_calls env later (c0.run env g).2.1)).2.1.performed
          = (run_calls env later (c0.run env g).2.1).performed ++ [e]) ∧
      (c.run env (run_calls env later (c0.run env g).2.1)).2.1.first = false := by
  have h1 : (c0.run env g).2.1.first = false := by
    unfold send_request_call.run at hsucc ⊢
    obtain ⟨o1, h | h | h⟩ :=
      send_request_auto_cases env c0.thread_id c0._post c0.switch_proxy g c0.self hauto0
    · exact h.2.2.2.1
    · rw [h.2.2.1] at hsucc
      exact absurd hsucc (by simp)
    · obtain ⟨-, -, -, o2, -, k2, k3, -⟩ := h
      rw [k3, ← k2, hsucc]
      rfl
  have h2 := run_calls_first_stays_down env later _ h1
  refine ⟨h1, h2, ?_⟩
  intro c hauto hfail
  generalize run_calls env later (c0.run env g).2.1 = g2 at *
  unfold send_request_call.run at hfail ⊢
  obtain ⟨o1, h | h | h⟩ :=
    send_request_auto_cases env c.thread_id c._post c.switch_proxy g2 c.self hauto
  · exfalso
    obtain ⟨e, he, hne⟩ := hfail
    rw [h.2.2.1] at he
    simp at he
    rw [← he] at hne
    exact hne h.1
  · exact ⟨h.2.2.1, ⟨_, h.2.2.2.1⟩, by rw [h.2.2.2.2.1, h2]⟩
  · rw [h2] at h
    exact absurd h.2.2.1 (by simp)

/-- C4: for an auto-proxy entity, `send_request` calls
`switch_proxy_settings` once when the execution that succeeded ran with
`switch_proxy = true`, and not at all otherwise.  An execution runs with
`switch_proxy = true` when the call was made with it or when it is the second
execution of the call.  A success of the first execution of a call made with
`switch_proxy = false` lowers the flag `first` and persists nothing; a call
that returns false persists nothing. -/
theorem persist_iff_fallback_succeeds (env : environment) (thread_id : Nat) (_post sw : Bool)
    (g : process) (self : http_request_simple)
    (hauto : self.proxy_settings_.proxy_type_ = env.auto_proxy) :
    ((self.send_request env thread_id _post sw g).2.1.switched = g.switched + 1 ↔
      ((self.send_request env thread_id _post sw g).1 = true ∧
        (sw = true ∨ (self.send_request env thread_id _post sw g).2.1.performed.length
          = g.performed.length + 2))) ∧
    ((self.send_request env thread_id _post sw g).2.1.switched ≠ g.switched + 1 →
      (self.send_request env thread_id _post sw g).2.1.switched = g.switched) ∧
    (sw = false →
      (∃ e, (self.send_request env thread_id _post sw g).2.1.performed[g.performed.length]?
        = some e ∧ e.2.res = 0) →
      (self.send_request env thread_id _post sw g).1 = true ∧
      (self.send_request env thread_id _post sw g).2.1.first = false ∧
      (self.send_request env thread_id _post sw g).2.1.switched = g.switched) ∧
    ((self.send_request env thread_id _post sw g).1 = false →
      (self.send_request env thread_id _post sw g).2.1.switched = g.switched) := by
  obtain ⟨o1, h | h | h⟩ := send_request_auto_cases env thread_id _post sw g self hauto
  · obtain ⟨k0, k1, k2, k3, k4⟩ := h
    rw [k1, k2, k3, k4]
    cases sw <;> simp
  · obtain ⟨k0, ks, k1, k2, k3, k4⟩ := h
    rw [k1, k2, k4]
    simp
    intro hsw e
    exact k0 e
  · obtain ⟨k0, ks, kf, o2, k1, k2, k3, k4⟩ := h
    subst ks
    have hidx : (g.performed ++ [(o1, env.curl_easy_perform g.performed.length o1),
        (o2, env.curl_easy_perform (g.performed.length + 1) o2)])[g.performed.length]?
        = some (o1, env.curl_easy_perform g.performed.length o1) := by
      rw [List.getElem?_append_right (le_refl _)]
      simp
    rw [k1, k2, k3, k4, hidx]
    by_cases hres : (env.curl_easy_perform (g.performed.length + 1) o2).res = 0
    · simp [hres]
      intro e
      exact k0 e
    · simp [hres]
      intro e
      exact k0 e

/-- C4, on a sample: the fallback execution succeeds and the choice is
persisted. -/
theorem persist_iff_fallback_succeeds_witness :
    sample_auto_request.proxy_settings_.proxy_type_ = sample_env.auto_proxy ∧
    (sample_auto_request.send_request sample_env 0 false false sample_process).2.1.switched
      = sample_process.switched + 1 ∧
    (sample_auto_request.send_request sample_env 0 false false sample_process).1 = true :=
  ⟨rfl,
    (persist_iff_fallback_succeeds sample_env 0 false false sample_process sample_auto_request
      rfl).1.2 (by
        simp [http_request_simple.send_request, http_request_simple.prepare, sample_env,
          sample_auto_request, sample_process, sample_proxy, process.start,
          http_request_simple.create, curl_context.create, curl_easy_init, curl_context.init,
          curl_context.execute_request]),
    by
      simp [http_request_simple.send_request, http_request_simple.prepare, sample_env,
        sample_auto_request, sample_process, sample_proxy, process.start,
        http_request_simple.create, curl_context.create, curl_easy_init, curl_context.init,
        curl_context.execute_request]⟩

/-- C3, on a sample: the first call succeeds through its fallback, a call on
an entity with its own proxy follows, and the fourth perform of the process,
made by a later call on the auto-proxy entity, fails. -/
theorem retry_once_per_process_witness :
    sample_auto_call.self.proxy_settings_.proxy_type_ = sample_env.auto_proxy ∧
    (sample_auto_call.run sample_env sample_process).1 = true ∧
    (sample_auto_call.run sample_env sample_process).2.1.first = false ∧
    (run_calls sample_env [sample_user_call]
      (sample_auto_call.run sample_env sample_process).2.1).first = false ∧
    (sample_auto_call.run sample_env (run_calls sample_env [sample_user_call]
      (sample_auto_call.run sample_env sample_process).2.1)).1 = false :=
  have hs : (sample_auto_call.run sample_env sample_process).1 = true := by
    simp [send_request_call.run, sample_auto_call, http_request_simple.send_request,
      http_request_simple.prepare, sample_env, sample_auto_request, sample_process,
      sample_proxy, process.start, http_request_simple.create, curl_context.create,
      curl_easy_init, curl_context.init, curl_context.execute_request]
  have ht := retry_once_per_process sample_env sample_process sample_auto_call
    [sample_user_call] rfl hs
  ⟨rfl, hs, ht.1, ht.2.1, (ht.2.2 sample_auto_call rfl (by
    simp [send_request_call.run, run_calls, sample_auto_call, sample_user_call,
      sample_user_request, http_request_simple.send_request,
      http_request_simple.prepare, sample_env, sample_auto_request, sample_process,
      sample_proxy, process.start, http_request_simple.create, curl_context.create,
      curl_easy_init, curl_context.init, curl_context.execute_request,
      http_request_simple.set_post_params, http_request_simple.get_post_param,
      curl_context.set_post, curl_context.set_url, curl_context.set_need_log,
      curl_context.set_custom_header_params, curl_context.set_replace_log_function])).1⟩

/-! ## Progress adapter -/

/-- C6: when the cancellation predicate is present and returns true at a
poll, the adapter returns -1 and leaves the context as it was (no call of the
progress function, stored percentage unchanged), whatever the total size,
the downloaded size and the presence of a progress function are. -/
theorem progress_callback_cancelled (cntx : curl_context) (now : Nat)
    (TotalToDownload NowDownloaded : Int) (f : Nat → Bool) (hstop : cntx.stop_func_ = some f)
    (hnow : f now = true) :
    (progress_callback cntx now TotalToDownload NowDownloaded).1 = -1 ∧
    (progress_callback cntx now TotalToDownload NowDownloaded).1 ≠ 0 ∧
    (progress_callback cntx now TotalToDownload NowDownloaded).2.progress_calls_
      = cntx.progress_calls_ ∧
    (progress_callback cntx now TotalToDownload NowDownloaded).2.bytes_transferred_pct_
      = cntx.bytes_transferred_pct_ ∧
    (progress_callback cntx now TotalToDownload NowDownloaded).2 = cntx := by
  have h : progress_callback cntx now TotalToDownload NowDownloaded = (-1, cntx) := by
    unfold progress_callback
    simp only [hstop, hnow, if_true]
  rw [h]
  exact ⟨rfl, by simp, rfl, rfl, rfl⟩

/-- C6, on a context whose predicate cancels from time 3 on, polled at time
5 in the middle of a transfer. -/
theorem progress_callback_cancelled_witness :
    (progress_callback (curl_context.create 0 sample_process (some (fun n => decide (3 ≤ n)))
      true false).1 5 1000 500).1 = -1 ∧
    (progress_callback (curl_context.create 0 sample_process (some (fun n => decide (3 ≤ n)))
      true false).1 5 1000 500).2.progress_calls_ = [] :=
  have h := progress_callback_cancelled (curl_context.create 0 sample_process
    (some (fun n => decide (3 ≤ n))) true false).1 5 1000 500 (fun n => decide (3 ≤ n)) rfl
    (by decide)
  ⟨h.1, h.2.2.1⟩

/-- C7: when cancellation is not signalled and the total size is at most 1
or there is no progress function, the adapter returns 0 and leaves the
context as it was (no call of the progress function, stored percentage
unchanged), for every downloaded size. -/
theorem progress_callback_noop (cntx : curl_context) (now : Nat)
    (TotalToDownload NowDownloaded : Int)
    (hstop : ∀ f, cntx.stop_func_ = some f → f now = false)
    (hskip : TotalToDownload ≤ 1 ∨ cntx.progress_func_ = false) :
    (progress_callback cntx now TotalToDownload NowDownloaded).1 = 0 ∧
    (progress_callback cntx now TotalToDownload NowDownloaded).2.progress_calls_
      = cntx.progress_calls_ ∧
    (progress_callback cntx now TotalToDownload NowDownloaded).2.bytes_transferred_pct_
      = cntx.bytes_transferred_pct_ ∧
    (progress_callback cntx now TotalToDownload NowDownloaded).2 = cntx := by
  have hs : (match cntx.stop_func_ with
      | some stop_func_ => stop_func_ now
      | none => false) = false := by
    cases hf : cntx.stop_func_ with
    | none => rfl
    | some f => exact hstop f hf
  have h : progress_callback cntx now TotalToDownload NowDownloaded = (0, cntx) := by
    unfold progress_callback
    simp only [hs]
    rcases hskip with h | h
    · simp [h]
    · simp [h]
  rw [h]
  exact ⟨rfl, rfl, rfl, rfl⟩

/-- C7, on a context with a progress function and a predicate that does not
cancel, polled on a transfer of one byte. -/
theorem progress_callback_noop_witness :
    (progress_callback (curl_context.create 0 sample_process (some (fun _ => false))
      true false).1 0 1 1).1 = 0 ∧
    (progress_callback (curl_context.create 0 sample_process (some (fun _ => false))
      true false).1 0 1 1).2.progress_calls_ = [] :=
  have h := progress_callback_noop (curl_context.create 0 sample_process
    (some (fun _ => false)) true false).1 0 1 1
    (fun f hf => by
      have : f = fun _ => false := (Option.some.inj hf).symm
      rw [this])
    (Or.inl (by decide))
  ⟨h.1, h.2.1⟩

/-! ## Host rewrite -/

/-- The search for `://` and the cut after its first occurrence agree. -/
theorem string_find_from_split (s : std_string) :
    ∀ pos : Nat,
      (string_find_from [':', '/', '/'] s pos = none ∧
        split_after_first [':', '/', '/'] s = none) ∨
      ∃ k, string_find_from [':', '/', '/'] s pos = some (pos + k) ∧
        split_after_first [':', '/', '/'] s = some (s.take (k + 3), s.drop (k + 3)) ∧
        k + 3 ≤ s.length := by
  induction s with
  | nil =>
    intro pos
    left
    exact ⟨rfl, rfl⟩
  | cons c rest ih =>
    intro pos
    by_cases hpre : List.isPrefixOf [':', '/', '/'] (c :: rest) = true
    · right
      refine ⟨0, ?_, ?_, ?_⟩
      · simp only [string_find_from, hpre, if_true, Nat.add_zero]
      · have htake := List.prefix_iff_eq_take.1 (List.isPrefixOf_iff_prefix.1 hpre)
        simp only [split_after_first, hpre, if_true, Nat.zero_add]
        have htake3 : [':', '/', '/'] = List.take 3 (c :: rest) := htake
        rw [← htake3]
        rfl
      · have hle := (List.isPrefixOf_iff_prefix.1 hpre).length_le
        simpa using hle
    · rcases ih (pos + 1) with ⟨h1, h2⟩ | ⟨k, h1, h2, h3⟩
      · left
        simp only [string_find_from, split_after_first, hpre, if_false, h1, h2, Option.map_none',
          and_self, Bool.false_eq_true]
      · right
        refine ⟨k + 1, ?_, ?_, ?_⟩
        · simp only [string_find_from, hpre, if_false, h1, Bool.false_eq_true]
          congr 1
          omega
        · simp only [split_after_first, hpre, if_false, h2, Option.map_some',
            Bool.false_eq_true]
          have e : k + 1 + 3 = (k + 3) + 1 := by omega
          rw [e, List.take_succ_cons, List.drop_succ_cons]
        · simp only [List.length_cons]
          omega

/-- The loop of `replace_host` collects the characters from `pos_end` up to
the first delimiter or the end, when it is allowed enough rounds. -/
theorem replace_host_loop_spec (url_ : std_string) :
    ∀ (rounds pos_end : Nat) (ss_host : std_string), url_.length - pos_end ≤ rounds →
      pos_end ≤ url_.length →
      http_request_simple.replace_host_loop url_ rounds pos_end ss_host
        = (ss_host ++ (url_.drop pos_end).takeWhile (fun c => !is_host_delimiter c),
           pos_end + ((url_.drop pos_end).takeWhile (fun c => !is_host_delimiter c)).length) := by
  intro rounds
  induction rounds with
  | zero =>
    intro pos_end ss_host h1 h2
    have hpos : url_.length ≤ pos_end := by omega
    simp [http_request_simple.replace_host_loop, List.drop_eq_nil_of_le hpos]
  | succ n ih =>
    intro pos_end ss_host h1 h2
    unfold http_request_simple.replace_host_loop
    by_cases hlt : pos_end < url_.length
    · have hat : string_at url_ pos_end = url_[pos_end] := by
        unfold string_at
        exact List.getD_eq_getElem _ _ hlt
      rw [hat, List.drop_eq_getElem_cons hlt]
      by_cases hd : is_host_delimiter url_[pos_end] = true
      · have hcond : ¬(url_[pos_end] ≠ '/' ∧ url_[pos_end] ≠ '?' ∧ url_[pos_end] ≠ ':' ∧
            pos_end < url_.length) := by
          simp only [is_host_delimiter, Bool.or_eq_true, decide_eq_true_eq] at hd
          tauto
        rw [if_neg hcond]
        simp [List.takeWhile_cons, hd]
      · have hcond : url_[pos_end] ≠ '/' ∧ url_[pos_end] ≠ '?' ∧ url_[pos_end] ≠ ':' ∧
            pos_end < url_.length := by
          simp only [is_host_delimiter, Bool.or_eq_true, decide_eq_true_eq] at hd
          tauto
        have hnd : (!is_host_delimiter url_[pos_end]) = true := by simp [hd]
        rw [if_pos hcond, ih (pos_end + 1) _ (by omega) (by omega),
          List.takeWhile_cons_of_pos (p := fun c => !is_host_delimiter c) hnd]
        simp only [List.append_assoc, List.singleton_append, List.length_cons, Prod.mk.injEq,
          true_and]
        omega
    · have hcond : ¬(string_at url_ pos_end ≠ '/' ∧ string_at url_ pos_end ≠ '?' ∧
          string_at url_ pos_end ≠ ':' ∧ pos_end < url_.length) := by
        tauto
      rw [if_neg hcond, List.drop_eq_nil_of_le (by omega)]
      simp

theorem drop_length_takeWhile (p : Char → Bool) (l : List Char) :
    l.drop (l.takeWhile p).length = l.dropWhile p := by
  have h := List.drop_left (l.takeWhile p) (l.dropWhile p)
  rw [List.takeWhile_append_dropWhile] at h
  exact h

/-- C8: `replace_host` does what the reference definition says, for every
entity and every alias lookup: only the URL changes, and it becomes the
reference rewrite of the old URL. -/
theorem replace_host_refines (self : http_request_simple) (alt : std_string → std_string) :
    self.replace_host alt = { self with url_ := replace_host_reference alt self.url_ } := by
  unfold http_request_simple.replace_host replace_host_reference string_find
  rcases string_find_from_split self.url_ 0 with ⟨h1, h2⟩ | ⟨k, h1, h2, h3⟩
  · simp only [h1, h2, if_true]
  · rw [Nat.zero_add] at h1
    have hnot : decide (k ≥ self.url_.length) = false := by
      simp only [ge_iff_le, decide_eq_false_iff_not, not_le]
      omega
    simp only [h1, h2, hnot, Bool.false_eq_true, if_false]
    rw [replace_host_loop_spec self.url_ self.url_.length (k + 3) [] (by omega) h3]
    simp only [List.nil_append]
    by_cases hh : List.takeWhile (fun c => !is_host_delimiter c) (List.drop (k + 3) self.url_)
        = []
    · simp only [hh, if_true]
    · simp only [hh, if_false]
      unfold string_replace
      have hdrop : List.drop (k + 3 + (k + 3 + (List.takeWhile (fun c => !is_host_delimiter c)
          (List.drop (k + 3) self.url_)).length - (k + 3))) self.url_
          = List.dropWhile (fun c => !is_host_delimiter c) (List.drop (k + 3) self.url_) := by
        rw [Nat.add_sub_cancel_left, ← List.drop_drop, drop_length_takeWhile]
      rw [hdrop]

/-- C8, on the example of the specification and on a URL without `://`. -/
theorem replace_host_example :
    ((sample_auto_request.set_url "https://old.example.com/path?q=1".toList).replace_host
      sample_host_alt).url_ = "https://new.example.com/path?q=1".toList ∧
    ((sample_auto_request.set_url "old.example.com/path?q=1".toList).replace_host
      sample_host_alt).url_ = "old.example.com/path?q=1".toList := by
  decide

/-! ## Post parameters -/

theorem get_post_param_loop_false (l : List (std_string × std_string)) :
    ∀ ss : std_string, http_request_simple.get_post_param_loop false l ss
      = if l = [] then ss else ss ++ '&' :: post_param_reference l := by
  induction l with
  | nil => intro ss; rfl
  | cons e rest ih =>
    intro ss
    obtain ⟨k, v⟩ := e
    unfold http_request_simple.get_post_param_loop
    simp only [Bool.not_false, if_true, ih, reduceCtorEq, if_false]
    have hr : (if v ≠ [] then ss ++ ['&'] ++ k ++ ['='] ++ v else ss ++ ['&'] ++ k)
        = ss ++ '&' :: render_post_parameter (k, v) := by
      unfold render_post_parameter
      by_cases hv : v = [] <;> simp [hv]
    rw [hr]
    cases rest with
    | nil => simp [post_param_reference, join_with]
    | cons e2 rest2 => simp [post_param_reference, join_with]

/-- The loop of `get_post_param` writes the reference encoding. -/
theorem get_post_param_eq_reference (self : http_request_simple) :
    self.get_post_param = post_param_reference self.post_parameters_ := by
  unfold http_request_simple.get_post_param
  cases h : self.post_parameters_ with
  | nil => rfl
  | cons e rest =>
    obtain ⟨k, v⟩ := e
    simp only [ne_eq, reduceCtorEq, not_false_eq_true, if_true]
    unfold http_request_simple.get_post_param_loop
    simp only [Bool.not_true, Bool.false_eq_true, if_false, List.nil_append,
      get_post_param_loop_false]
    have hr : (if v ≠ [] then k ++ ['='] ++ v else k) = render_post_parameter (k, v) := by
      unfold render_post_parameter
      by_cases hv : v = [] <;> simp [hv]
    rw [hr]
    cases rest with
    | nil => simp [post_param_reference, join_with]
    | cons e2 rest2 => simp [post_param_reference, join_with]

theorem push_post_parameters_fold (ps : List (std_string × std_string)) :
    ∀ self : http_request_simple,
      (push_post_parameters ps self).post_parameters_
        = ps.foldl (fun m kv => map_assign kv.1 kv.2 m) self.post_parameters_ ∧
      (push_post_parameters ps self).url_ = self.url_ := by
  induction ps with
  | nil => intro self; exact ⟨rfl, rfl⟩
  | cons p rest ih =>
    intro self
    have h := ih (self.push_post_parameter p.1 p.2)
    exact ⟨h.1, h.2⟩

theorem foldl_map_assign_sorted (ps : List (std_string × std_string)) :
    ∀ m : List (std_string × std_string), m.Pairwise (fun a b => a.1 < b.1) →
      (ps.foldl (fun m kv => map_assign kv.1 kv.2 m) m).Pairwise (fun a b => a.1 < b.1) := by
  induction ps with
  | nil => intro m hm; exact hm
  | cons p rest ih => intro m hm; exact ih _ (map_assign_sorted p.1 p.2 m hm)

theorem foldl_map_assign_find (k : std_string) (ps : List (std_string × std_string)) :
    ∀ m : List (std_string × std_string),
      map_find k (ps.foldl (fun m kv => map_assign kv.1 kv.2 m) m)
        = ps.foldl (fun found kv => if k = kv.1 then some kv.2 else found) (map_find k m) := by
  induction ps with
  | nil => intro m; rfl
  | cons p rest ih =>
    intro m
    rw [List.foldl_cons, List.foldl_cons, ih, map_find_map_assign]

theorem foldl_map_assign_mem (ps : List (std_string × std_string)) :
    ∀ (m : List (std_string × std_string)) (e : std_string × std_string),
      e ∈ ps.foldl (fun m kv => map_assign kv.1 kv.2 m) m → e ∈ ps ∨ e ∈ m := by
  induction ps with
  | nil => intro m e he; exact Or.inr he
  | cons p rest ih =>
    intro m e he
    rcases ih _ e he with h | h
    · exact Or.inl (List.mem_cons_of_mem _ h)
    · rcases mem_map_assign p.1 p.2 m e h with h | h
      · exact Or.inl (by rw [h]; exact List.mem_cons_self _ _)
      · exact Or.inr h

/-- C9: after any sequence of `push_post_parameter` calls on an entity that
held no post parameter, the parameter map holds its entries in strictly
ascending key order (so keys are unique), each key with the value pushed for
it last; `get_post_param` returns these entries, in that order, rendered as
`key=value` or as the bare key when the value is empty, and joined by `&`;
without any parameter it returns the empty string; `get_post_url` returns the
URL, a `?` and that encoding. -/
theorem get_post_param_encoding (self : http_request_simple)
    (ps : List (std_string × std_string)) (hempty : self.post_parameters_ = []) :
    (push_post_parameters ps self).post_parameters_.Pairwise (fun a b => a.1 < b.1) ∧
    (∀ k, map_find k (push_post_parameters ps self).post_parameters_
      = ps.foldl (fun found kv => if k = kv.1 then some kv.2 else found) none) ∧
    (push_post_parameters ps self).get_post_param
      = join_with '&' ((push_post_parameters ps self).post_parameters_.map
          (fun kv => if kv.2 = [] then kv.1 else kv.1 ++ ['='] ++ kv.2)) ∧
    (ps = [] → (push_post_parameters ps self).get_post_param = []) ∧
    (push_post_parameters ps self).get_post_url
      = (push_post_parameters ps self).url_ ++ ['?'] ++
        join_with '&' ((push_post_parameters ps self).post_parameters_.map
          (fun kv => if kv.2 = [] then kv.1 else kv.1 ++ ['='] ++ kv.2)) := by
  have hf := (push_post_parameters_fold ps self).1
  have henc := get_post_param_eq_reference (push_post_parameters ps self)
  refine ⟨?_, ?_, henc, ?_, ?_⟩
  · rw [hf, hempty]
    exact foldl_map_assign_sorted ps [] List.Pairwise.nil
  · intro k
    rw [hf, hempty, foldl_map_assign_find]
    rfl
  · intro hps
    subst hps
    rw [henc]
    show post_param_reference self.post_parameters_ = []
    rw [hempty]
    rfl
  · unfold http_request_simple.get_post_url
    rw [henc]
    rfl

/-- C9, on the example of the specification: `b` without value and `a` with
value `1`, pushed in that order, encode to `a=1&b`. -/
theorem get_post_param_encoding_witness :
    sample_auto_request.post_parameters_ = [] ∧
    (push_post_parameters [(['b'], []), (['a'], ['1'])] sample_auto_request).get_post_param
      = "a=1&b".toList ∧
    (push_post_parameters [(['b'], []), (['a'], ['1'])]
      (sample_auto_request.set_url "http://h/p".toList)).get_post_url
      = "http://h/p?a=1&b".toList ∧
    (push_post_parameters [(['b'], []), (['a'], ['1'])]
      sample_auto_request).post_parameters_.Pairwise (fun a b => a.1 < b.1) :=
  ⟨rfl, by decide, by decide,
    (get_post_param_encoding sample_auto_request [(['b'], []), (['a'], ['1'])] rfl).1⟩

/-! ## Round trip of the post parameters -/

theorem split_on_append (sep : Char) (s : std_string) (hs : sep ∉ s) :
    split_on sep s = [s] ∧
    ∀ rest : std_string, split_on sep (s ++ sep :: rest) = s :: split_on sep rest := by
  induction s with
  | nil =>
    refine ⟨rfl, ?_⟩
    intro rest
    simp [split_on]
  | cons c t ih =>
    have hc : c ≠ sep := fun h => hs (by rw [h]; exact List.mem_cons_self _ _)
    have ht : sep ∉ t := fun h => hs (List.mem_cons_of_mem _ h)
    obtain ⟨ih1, ih2⟩ := ih ht
    refine ⟨?_, ?_⟩
    · simp [split_on, hc, ih1]
    · intro rest
      simp [split_on, hc, ih2]

theorem split_on_join_with (sep : Char) (segs : List std_string) (hne : segs ≠ [])
    (hsep : ∀ s ∈ segs, sep ∉ s) : split_on sep (join_with sep segs) = segs := by
  induction segs with
  | nil => exact absurd rfl hne
  | cons x rest ih =>
    have hx : sep ∉ x := hsep x (List.mem_cons_self _ _)
    cases rest with
    | nil => exact (split_on_append sep x hx).1
    | cons y rest2 =>
      have hrest := ih (by simp) (fun s h => hsep s (List.mem_cons_of_mem _ h))
      show split_on sep (x ++ sep :: join_with sep (y :: rest2)) = x :: y :: rest2
      rw [(split_on_append sep x hx).2, hrest]

theorem takeWhile_render_post_parameter (k v : std_string) (hk : '=' ∉ k) :
    (render_post_parameter (k, v)).takeWhile (fun c => c ≠ '=') = k := by
  have h1 : ∀ (t : std_string), '=' ∉ t → t.takeWhile (fun c => decide (c ≠ '=')) = t := by
    intro t ht
    rw [List.takeWhile_eq_self_iff]
    intro c hc
    simp only [ne_eq, decide_not, Bool.not_eq_true', decide_eq_false_iff_not]
    intro h
    exact ht (by rw [← h]; exact hc)
  have h2 : ∀ (t rest : std_string), '=' ∉ t →
      (t ++ '=' :: rest).takeWhile (fun c => decide (c ≠ '=')) = t := by
    intro t rest ht
    induction t with
    | nil => simp
    | cons c t ih =>
      have hc : c ≠ '=' := fun h => ht (by rw [h]; exact List.mem_cons_self _ _)
      have hd : decide (c ≠ '=') = true := by simp [hc]
      rw [List.cons_append, List.takeWhile_cons_of_pos (p := fun c => decide (c ≠ '=')) hd,
        ih (fun h => ht (List.mem_cons_of_mem _ h))]
  unfold render_post_parameter
  by_cases hv : v = []
  · simp only [hv, if_true]
    exact h1 k hk
  · simp only [hv, if_false, List.append_assoc, List.singleton_append]
    exact h2 k v hk

theorem join_with_ne_nil (sep : Char) (x : std_string) (rest : List std_string) (hx : x ≠ []) :
    join_with sep (x :: rest) ≠ [] := by
  cases rest with
  | nil => exact hx
  | cons y rest2 =>
    show x ++ sep :: join_with sep (y :: rest2) ≠ []
    simp

/-- The round trip on the entries of a parameter map. -/
theorem parse_post_keys_reference (entries : List (std_string × std_string))
    (h : ∀ kv ∈ entries, kv.1 ≠ [] ∧ '&' ∉ kv.1 ∧ '=' ∉ kv.1 ∧ '&' ∉ kv.2) :
    parse_post_keys (post_param_reference entries) = entries.map (fun kv => kv.1) := by
  cases entries with
  | nil => rfl
  | cons e rest =>
    have hne : post_param_reference (e :: rest) ≠ [] := by
      unfold post_param_reference
      rw [List.map_cons]
      apply join_with_ne_nil
      have hk := (h e (List.mem_cons_self _ _)).1
      unfold render_post_parameter
      by_cases hv : e.2 = [] <;> simp [hv, hk]
    unfold parse_post_keys
    rw [if_neg hne]
    unfold post_param_reference
    rw [split_on_join_with '&' _ (by simp)]
    · rw [List.map_map]
      apply List.map_congr_left
      intro kv hkv
      exact takeWhile_render_post_parameter kv.1 kv.2 (h kv hkv).2.2.1
    · intro s hs
      obtain ⟨kv, hkv, rfl⟩ := List.mem_map.1 hs
      obtain ⟨-, h1, -, h2⟩ := h kv hkv
      unfold render_post_parameter
      by_cases hv : kv.2 = []
      · simp only [hv, if_true]
        exact h1
      · simp only [hv, if_false, List.append_assoc, List.singleton_append, List.mem_append,
          List.mem_cons]
        rintro (h3 | h3 | h3)
        · exact h1 h3
        · exact absurd h3 (by decide)
        · exact h2 h3

theorem mem_of_map_find {κ ν : Type} [DecidableEq κ] (k : κ) (v : ν) (m : List (κ × ν))
    (h : map_find k m = some v) : (k, v) ∈ m := by
  induction m with
  | nil => simp [map_find] at h
  | cons a rest ih =>
    obtain ⟨k2, v2⟩ := a
    unfold map_find at h
    split_ifs at h with h1
    · subst h1
      rw [Option.some.inj h]
      exact List.mem_cons_self _ _
    · exact List.mem_cons_of_mem _ (ih h)

theorem foldl_found_some (k : std_string) (ps : List (std_string × std_string)) :
    ∀ found : Option std_string,
      (found.isSome = true ∨ ∃ v, (k, v) ∈ ps) →
      (ps.foldl (fun found kv => if k = kv.1 then some kv.2 else found) found).isSome = true := by
  induction ps with
  | nil =>
    intro found h
    rcases h with h | ⟨v, hv⟩
    · exact h
    · simp at hv
  | cons p rest ih =>
    intro found h
    rw [List.foldl_cons]
    apply ih
    by_cases hk : k = p.1
    · left
      simp [hk]
    · rcases h with h | ⟨v, hv⟩
      · left
        simp [hk, h]
      · right
        rcases List.mem_cons.1 hv with h2 | h2
        · exact absurd (congrArg Prod.fst h2) hk
        · exact ⟨v, h2⟩

/-- C10, as stated, fails: nothing is escaped, so the single parameter with
key `a&b` and no value is encoded as `a&b` and read back as the two keys `a`
and `b`; the two parameters `a` and `b` without values have the same
encoding. -/
theorem post_keys_round_trip_fails :
    (push_post_parameters [("a&b".toList, [])] sample_auto_request).post_parameters_.map
      (fun kv => kv.1) = ["a&b".toList] ∧
    parse_post_keys (push_post_parameters [("a&b".toList, [])] sample_auto_request).get_post_param
      = [['a'], ['b']] ∧
    ['a'] ∉ (push_post_parameters [("a&b".toList, [])] sample_auto_request).post_parameters_.map
      (fun kv => kv.1) ∧
    (push_post_parameters [("a&b".toList, [])] sample_auto_request).get_post_param
      = (push_post_parameters [(['a'], []), (['b'], [])] sample_auto_request).get_post_param := by
  decide

/-- C10, amended: when every key pushed is non-empty and holds neither `&`
nor `=` and every value pushed holds no `&`, reading the body of
`get_post_param` back (split on `&`, key up to the first `=`) gives the keys
of the parameter map, in its order, and these are exactly the keys that were
pushed. -/
theorem post_keys_round_trip (self : http_request_simple)
    (ps : List (std_string × std_string)) (hempty : self.post_parameters_ = [])
    (hclean : ∀ kv ∈ ps, kv.1 ≠ [] ∧ '&' ∉ kv.1 ∧ '=' ∉ kv.1 ∧ '&' ∉ kv.2) :
    parse_post_keys (push_post_parameters ps self).get_post_param
      = (push_post_parameters ps self).post_parameters_.map (fun kv => kv.1) ∧
    ∀ k, k ∈ parse_post_keys (push_post_parameters ps self).get_post_param ↔
      ∃ v, (k, v) ∈ ps := by
  have hf := (push_post_parameters_fold ps self).1
  rw [hempty] at hf
  have hmem : ∀ e ∈ (push_post_parameters ps self).post_parameters_, e ∈ ps := by
    intro e he
    rw [hf] at he
    rcases foldl_map_assign_mem ps [] e he with h | h
    · exact h
    · simp at h
  have hrt : parse_post_keys (push_post_parameters ps self).get_post_param
      = (push_post_parameters ps self).post_parameters_.map (fun kv => kv.1) := by
    rw [get_post_param_eq_reference]
    exact parse_post_keys_reference _ (fun kv hkv => hclean kv (hmem kv hkv))
  refine ⟨hrt, ?_⟩
  intro k
  rw [hrt]
  constructor
  · intro hk
    obtain ⟨e, he, rfl⟩ := List.mem_map.1 hk
    exact ⟨e.2, hmem e he⟩
  · rintro ⟨v, hv⟩
    have hsome := foldl_found_some k ps none (Or.inr ⟨v, hv⟩)
    have hfind := foldl_map_assign_find k ps []
    rw [← hf] at hfind
    have hnone : map_find k ([] : List (std_string × std_string)) = none := rfl
    rw [hnone] at hfind
    rw [← hfind] at hsome
    obtain ⟨v', hv'⟩ := Option.isSome_iff_exists.1 hsome
    exact List.mem_map.2 ⟨(k, v'), mem_of_map_find k v' _ hv', rfl⟩

/-- C10, amended, on the example of the specification. -/
theorem post_keys_round_trip_witness :
    sample_auto_request.post_parameters_ = [] ∧
    (∀ kv ∈ [((['b'] : std_string), ([] : std_string)), (['a'], ['1'])],
      kv.1 ≠ [] ∧ '&' ∉ kv.1 ∧ '=' ∉ kv.1 ∧ '&' ∉ kv.2) ∧
    parse_post_keys
      (push_post_parameters [(['b'], []), (['a'], ['1'])] sample_auto_request).get_post_param
      = (push_post_parameters [(['b'], []), (['a'], ['1'])]
          sample_auto_request).post_parameters_.map (fun kv => kv.1) ∧
    (push_post_parameters [(['b'], []), (['a'], ['1'])]
      sample_auto_request).post_parameters_.map (fun kv => kv.1) = [['a'], ['b']] :=
  ⟨rfl, by decide,
    (post_keys_round_trip sample_auto_request [(['b'], []), (['a'], ['1'])] rfl
      (by decide)).1, by decide⟩

/-! ## Results of a failed request -/

theorem set_post_params_results (self : http_request_simple) (ctx : curl_context) :
    (self.set_post_params ctx).1.output_ = self.output_ ∧
    (self.set_post_params ctx).1.header_ = self.header_ ∧
    (self.set_post_params ctx).1.response_code_ = self.response_code_ := by
  unfold http_request_simple.set_post_params
  simp only [http_request_simple.set_post_data, http_request_simple.clear_post_data]
  refine ⟨?_, ?_, ?_⟩ <;> split <;> rfl

/-- The preparation of a request leaves the results held by the entity as
they are. -/
theorem prepare_results (env : environment) (thread_id : Nat) (_post sw : Bool) (g : process)
    (self : http_request_simple) :
    (http_request_simple.prepare env thread_id _post sw g self).2.2.2.output_ = self.output_ ∧
    (http_request_simple.prepare env thread_id _post sw g self).2.2.2.header_ = self.header_ ∧
    (http_request_simple.prepare env thread_id _post sw g self).2.2.2.response_code_
      = self.response_code_ := by
  unfold http_request_simple.prepare
  simp only []
  cases _post
  · simp only [Bool.false_eq_true, if_false]
    refine ⟨?_, ?_, ?_⟩ <;> split_ifs <;> rfl
  · have h1 := fun c => (set_post_params_results self c).1
    have h2 := fun c => (set_post_params_results self c).2.1
    have h3 := fun c => (set_post_params_results self c).2.2
    simp only [if_true]
    refine ⟨?_, ?_, ?_⟩ <;> split_ifs <;> simp only [h1, h2, h3]

/-- A call `send_request(_post, true)` that returns false leaves the results
held by the entity as they are. -/
theorem send_request_fallback_failure_results (env : environment) (thread_id : Nat)
    (_post : Bool) (g : process) (self : http_request_simple)
    (hfail : (self.send_request env thread_id _post true g).1 = false) :
    (self.send_request env thread_id _post true g).2.2.output_ = self.output_ ∧
    (self.send_request env thread_id _post true g).2.2.header_ = self.header_ ∧
    (self.send_request env thread_id _post true g).2.2.response_code_ = self.response_code_ := by
  have hpr := prepare_results env thread_id _post true g self
  rw [http_request_simple.send_request] at hfail ⊢
  rcases hp : http_request_simple.prepare env thread_id _post true g self with
    ⟨b, ctx, g1, self1⟩
  rw [hp] at hpr hfail
  simp only at hpr
  cases b
  · exact hpr
  · simp only at hfail ⊢
    rcases he : ctx.execute_request env g1 with ⟨ok, c, g2⟩
    rw [he] at hfail
    by_cases hu : self1.proxy_settings_.proxy_type_ ≠ env.auto_proxy
    · rw [if_pos hu] at hfail ⊢
      cases ok
      · exact hpr
      · simp at hfail
    · rw [if_neg hu] at hfail ⊢
      cases ok
      · simp only [dite_true, ite_self]
        exact hpr
      · simp at hfail

/-- A call of `send_request` that returns false leaves the results held by
the entity as they are. -/
theorem send_request_failure_results (env : environment) (thread_id : Nat)
    (_post sw : Bool) (g : process) (self : http_request_simple)
    (hfail : (self.send_request env thread_id _post sw g).1 = false) :
    (self.send_request env thread_id _post sw g).2.2.output_ = self.output_ ∧
    (self.send_request env thread_id _post sw g).2.2.header_ = self.header_ ∧
    (self.send_request env thread_id _post sw g).2.2.response_code_ = self.response_code_ := by
  cases sw
  · have hpr := prepare_results env thread_id _post false g self
    rw [http_request_simple.send_request] at hfail ⊢
    rcases hp : http_request_simple.prepare env thread_id _post false g self with
      ⟨b, ctx, g1, self1⟩
    rw [hp] at hpr hfail
    simp only at hpr
    cases b
    · exact hpr
    · simp only at hfail ⊢
      rcases he : ctx.execute_request env g1 with ⟨ok, c, g2⟩
      rw [he] at hfail
      by_cases hu : self1.proxy_settings_.proxy_type_ ≠ env.auto_proxy
      · rw [if_pos hu] at hfail ⊢
        cases ok
        · exact hpr
        · simp at hfail
      · rw [if_neg hu] at hfail ⊢
        cases ok
        · by_cases hf : g2.first = true
          · simp only [hf, if_true, Bool.false_eq_true, dite_false] at hfail ⊢
            obtain ⟨k1, k2, k3⟩ :=
              send_request_fallback_failure_results env thread_id _post g2 self1 hfail
            exact ⟨k1.trans hpr.1, k2.trans hpr.2.1, k3.trans hpr.2.2⟩
          · simp only [hf, if_false, Bool.false_eq_true]
            exact hpr
        · simp at hfail
  · exact send_request_fallback_failure_results env thread_id _post g self hfail

/-- C11, as stated, fails: on an entity that holds the results of a
successful execution (body `ok`, header `h`, status 200) the next call fails
and returns false, and the entity still exposes that body, header and
status. -/
theorem failed_request_exposes_earlier_results :
    (sample_user_request.send_request sample_env_failing_later 0 false false sample_process).1
      = true ∧
    (((sample_user_request.send_request sample_env_failing_later 0 false false
        sample_process).2.2).send_request sample_env_failing_later 0 false false
      (sample_user_request.send_request sample_env_failing_later 0 false false
        sample_process).2.1).1 = false ∧
    (((sample_user_request.send_request sample_env_failing_later 0 false false
        sample_process).2.2).send_request sample_env_failing_later 0 false false
      (sample_user_request.send_request sample_env_failing_later 0 false false
        sample_process).2.1).2.2.get_response = ['o', 'k'] ∧
    (((sample_user_request.send_request sample_env_failing_later 0 false false
        sample_process).2.2).send_request sample_env_failing_later 0 false false
      (sample_user_request.send_request sample_env_failing_later 0 false false
        sample_process).2.1).2.2.get_header = ['h'] ∧
    (((sample_user_request.send_request sample_env_failing_later 0 false false
        sample_process).2.2).send_request sample_env_failing_later 0 false false
      (sample_user_request.send_request sample_env_failing_later 0 false false
        sample_process).2.1).2.2.get_response_code = 200 := by
  simp [http_request_simple.send_request, http_request_simple.prepare,
    sample_env_failing_later, sample_user_request, sample_process, sample_proxy, process.start,
    http_request_simple.create, curl_context.create, curl_easy_init, curl_context.init,
    curl_context.execute_request, http_request_simple.get_response,
    http_request_simple.get_header, http_request_simple.get_response_code,
    curl_context.get_response, curl_context.get_header, curl_context.get_response_code,
    curl_context.set_url, curl_context.set_need_log, curl_context.set_custom_header_params,
    curl_context.set_replace_log_function, curl_context.write_log_string]

/-- C11, amended: whenever `send_request` returns false, the entity exposes
afterwards the response body, the header buffer and the status code it
exposed before the call, whatever its prior state was; for an entity fresh
from its constructor these are the empty body, the empty header and the
value the constructor left in the status code. -/
theorem failed_request_keeps_results (env : environment) (thread_id : Nat)
    (_post sw : Bool) (g : process) (self : http_request_simple)
    (hfail : (self.send_request env thread_id _post sw g).1 = false) :
    (self.send_request env thread_id _post sw g).2.2.get_response = self.get_response ∧
    (self.send_request env thread_id _post sw g).2.2.get_header = self.get_header ∧
    (self.send_request env thread_id _post sw g).2.2.get_response_code
      = self.get_response_code ∧
    ∀ (p : proxy_settings) (ua : std_string) (stop : Option (Nat → Bool)) (progress : Bool)
      (indeterminate : Int), self = http_request_simple.create p ua stop progress indeterminate →
      (self.send_request env thread_id _post sw g).2.2.get_response = [] ∧
      (self.send_request env thread_id _post sw g).2.2.get_header = [] ∧
      (self.send_request env thread_id _post sw g).2.2.get_response_code = indeterminate := by
  obtain ⟨h1, h2, h3⟩ := send_request_failure_results env thread_id _post sw g self hfail
  refine ⟨h1, h2, h3, ?_⟩
  intro p ua stop progress indeterminate hself
  unfold http_request_simple.get_response http_request_simple.get_header
    http_request_simple.get_response_code
  rw [h1, h2, h3, hself]
  exact ⟨rfl, rfl, rfl⟩

/-- C11, amended, on a sample: a fallback attempt on a fresh entity fails on
the first perform of the process. -/
theorem failed_request_keeps_results_witness :
    (sample_auto_request.send_request sample_env 0 false true sample_process).1 = false ∧
    (sample_auto_request.send_request sample_env 0 false true sample_process).2.2.get_response
      = sample_auto_request.get_response ∧
    (sample_auto_request.send_request sample_env 0 false true sample_process).2.2.get_header
      = sample_auto_request.get_header ∧
    (sample_auto_request.send_request sample_env 0 false true
      sample_process).2.2.get_response_code = sample_auto_request.get_response_code :=
  have hf : (sample_auto_request.send_request sample_env 0 false true sample_process).1
      = false := by
    simp [http_request_simple.send_request, http_request_simple.prepare, sample_env,
      sample_auto_request, sample_process, sample_proxy, process.start,
      http_request_simple.create, curl_context.create, curl_easy_init, curl_context.init,
      curl_context.execute_request]
  have ht := failed_request_keeps_results sample_env 0 false true sample_process
    sample_auto_request hf
  ⟨hf, ht.1, ht.2.1, ht.2.2.1⟩

/-! ## Range -/

theorem set_post_params_range (self : http_request_simple) (ctx : curl_context) :
    (self.set_post_params ctx).1.range_from_ = self.range_from_ ∧
    (self.set_post_params ctx).1.range_to_ = self.range_to_ ∧
    (self.set_post_params ctx).1.is_time_condition_ = self.is_time_condition_ ∧
    (self.set_post_params ctx).2.opts_.range = ctx.opts_.range := by
  have h1 : ∀ (l : List (std_string × std_string)) (c : curl_context),
      (l.foldl (fun c kv => if kv.2 ≠ [] then c.set_form_field kv.1 kv.2 else c) c).opts_
        = c.opts_ :=
    fun l c => foldl_opts _ (fun c a => by
      by_cases h : a.2 ≠ [] <;> simp [h, curl_context.set_form_field]) l c
  have h2 : ∀ (l : List (std_string × std_string)) (c : curl_context),
      (l.foldl (fun c kv => c.set_form_file kv.1 kv.2) c).opts_ = c.opts_ :=
    fun l c => foldl_opts (fun c (kv : std_string × std_string) => c.set_form_file kv.1 kv.2)
      (fun c a => rfl) l c
  have h3 : ∀ (l : List (std_string × std_string × std_string)) (c : curl_context),
      (l.foldl (fun c kv => c.set_form_filedata kv.1 kv.2.1 kv.2.2) c).opts_ = c.opts_ :=
    fun l c => foldl_opts (fun c (kv : std_string × std_string × std_string) =>
      c.set_form_filedata kv.1 kv.2.1 kv.2.2) (fun c a => rfl) l c
  have h4 : ∀ (c : curl_context) (d : std_string) (n : Int),
      (c.set_post_fields d n).opts_.range = c.opts_.range := fun _ _ _ => rfl
  have h5 : ∀ (b : Bool) (c : curl_context),
      (if b = true then c.set_http_post else c.set_post).opts_.range = c.opts_.range := by
    intro b c; cases b <;> rfl
  unfold http_request_simple.set_post_params
  refine ⟨?_, ?_, ?_, ?_⟩
  · simp only [http_request_simple.set_post_data, http_request_simple.clear_post_data]
    split <;> rfl
  · simp only [http_request_simple.set_post_data, http_request_simple.clear_post_data]
    split <;> rfl
  · simp only [http_request_simple.set_post_data, http_request_simple.clear_post_data]
    split <;> rfl
  · simp only []
    rw [h5]
    split
    · split_ifs <;> simp only [h4, h3, h2, h1]
    · split_ifs <;> simp only [h3, h2, h1]

/-- The guard of `send_request` on the range: the context is given the pair of
the entity when `range_from_ >= 0` and `range_to_ > 0`, and no range
otherwise. -/
theorem prepare_range (env : environment) (thread_id : Nat) (_post sw : Bool) (g : process)
    (self : http_request_simple) :
    (http_request_simple.prepare env thread_id _post sw g self).2.1.opts_.range
      = if self.range_from_ ≥ 0 ∧ self.range_to_ > 0 then
          some (self.range_from_, self.range_to_) else none := by
  obtain ⟨h, hc⟩ := create_curl thread_id g self.stop_func_ self.progress_func_ self.keep_alive_
  have ho : (curl_context.create thread_id g self.stop_func_ self.progress_func_
      self.keep_alive_).1.opts_ = easy_options.unset := rfl
  unfold http_request_simple.prepare
  simp only []
  generalize curl_context.create thread_id g self.stop_func_ self.progress_func_
      self.keep_alive_ = cg at *
  generalize (if self.proxy_settings_.proxy_type_ ≠ env.auto_proxy then
      self.proxy_settings_
    else if sw = true then cg.2.registry_proxy_settings else cg.2.auto_proxy_settings) = cur
  obtain ⟨i1, -, i3⟩ := init_ok env cg.1 self.connect_timeout_ self.timeout_ cur
    self.user_agent_ h hc ho
  simp only [i1, Bool.not_true, Bool.false_eq_true, if_false]
  generalize (cg.1.init env self.connect_timeout_ self.timeout_ cur self.user_agent_).2 = c0 at *
  have hsc : (if _post = true then self.set_post_params c0 else (self, c0)).1.range_from_
        = self.range_from_ ∧
      (if _post = true then self.set_post_params c0 else (self, c0)).1.range_to_
        = self.range_to_ ∧
      (if _post = true then self.set_post_params c0 else (self, c0)).2.opts_.range = none := by
    cases _post
    · exact ⟨rfl, rfl, i3⟩
    · obtain ⟨a, b, -, d⟩ := set_post_params_range self c0
      exact ⟨a, b, d.trans i3⟩
  generalize (if _post = true then self.set_post_params c0 else (self, c0)) = sc at *
  obtain ⟨s1, s2, s3⟩ := hsc
  rw [s1, s2]
  show (curl_context.set_url _ _).opts_.range = _
  have hurl : ∀ (c : curl_context) (u : std_string), (c.set_url u).opts_.range = c.opts_.range := by
    intro c u
    unfold curl_context.set_url
    simp only []
    split_ifs <;> rfl
  have hhdr : ∀ (c : curl_context) (l : List std_string),
      (c.set_custom_header_params l).opts_.range = c.opts_.range := by
    intro c l
    unfold curl_context.set_custom_header_params
    simp only []
    split_ifs <;> rfl
  rw [hurl, hhdr]
  unfold curl_context.set_need_log
  simp only []
  by_cases hr : self.range_from_ ≥ 0 ∧ self.range_to_ > 0
  · rw [if_pos hr, if_pos hr]
    rfl
  · rw [if_neg hr, if_neg hr]
    split_ifs
    · exact s3
    · exact s3

/-- C12 on the failing input: after `set_range(5, 3)` on the entity,
`send_request` passes its guard (`5 >= 0` and `3 > 0`), so the context's
`set_range` is reached with the pair (5, 3), the transfer is performed with
the range `5-3`, and the third assertion of `set_range`, `_from < _to`, does
not hold for that pair. -/
theorem set_range_reversed_reaches_context :
    ((sample_user_request.set_range 5 3).send_request sample_env_failing_later 0 false false
      sample_process).2.1.performed.map (fun e => e.1.range) = [some (5, 3)] ∧
    ¬ set_range_asserts 5 3 := by
  refine ⟨?_, ?_⟩
  · simp [http_request_simple.send_request, http_request_simple.prepare,
      http_request_simple.set_range, sample_env_failing_later, sample_user_request,
      sample_process, sample_proxy, process.start, http_request_simple.create,
      curl_context.create, curl_easy_init, curl_context.init, curl_context.execute_request,
      curl_context.set_range, curl_context.set_url, curl_context.set_need_log,
      curl_context.set_custom_header_params, curl_context.set_replace_log_function,
      proxy_options, easy_options.unset, default_http_connect_timeout,
      default_http_execute_timeout]
  · unfold set_range_asserts
    decide

/-! ## Handle pool -/

theorem get_for_this_thread_found (t : Nat) (g : process) (h : Nat)
    (hf : map_find t g.handles_ = some h) : get_for_this_thread t g = (h, g) := by
  unfold get_for_this_thread
  rw [hf]

theorem get_for_this_thread_new (t : Nat) (g : process) (hf : map_find t g.handles_ = none) :
    get_for_this_thread t g
      = (g.next_handle, { g with next_handle := g.next_handle + 1,
                                 handles_ := map_assign t g.next_handle g.handles_ }) := by
  unfold get_for_this_thread
  rw [hf]
  rfl

theorem on_thread_shutdown_found (t : Nat) (g : process) (h : Nat)
    (hf : map_find t g.handles_ = some h) :
    on_thread_shutdown t g = { g with handles_ := map_erase t g.handles_ } := by
  unfold on_thread_shutdown
  rw [hf]

theorem on_thread_shutdown_none (t : Nat) (g : process) (hf : map_find t g.handles_ = none) :
    on_thread_shutdown t g = g := by
  unfold on_thread_shutdown
  rw [hf]

theorem pool_ok_start (registry auto : proxy_settings) : pool_ok (process.start registry auto) := by
  refine ⟨List.Pairwise.nil, ?_, ?_⟩
  · intro t h hf
    simp [process.start, map_find] at hf
  · intro t1 t2 h _ hf
    simp [process.start, map_find] at hf

/-- Every operation keeps the pool well kept and never lowers the next
handle. -/
theorem pool_op_run_ok (op : pool_op) (g : process) (hg : pool_ok g) :
    pool_ok (op.run g) ∧ g.next_handle ≤ (op.run g).next_handle := by
  obtain ⟨hs, hlt, hinj⟩ := hg
  cases op with
  | get t =>
    show pool_ok (get_for_this_thread t g).2 ∧
      g.next_handle ≤ (get_for_this_thread t g).2.next_handle
    cases hf : map_find t g.handles_ with
    | some h =>
      rw [get_for_this_thread_found t g h hf]
      exact ⟨⟨hs, hlt, hinj⟩, le_refl _⟩
    | none =>
      rw [get_for_this_thread_new t g hf]
      refine ⟨⟨map_assign_sorted t g.next_handle g.handles_ hs, ?_, ?_⟩, Nat.le_succ _⟩
      · intro t' h hf'
        show h < g.next_handle + 1
        simp only [map_find_map_assign] at hf'
        split_ifs at hf' with h1
        · have := Option.some.inj hf'
          omega
        · exact Nat.lt_succ_of_lt (hlt t' h hf')
      · intro t1 t2 h hne hf1 hf2
        simp only [map_find_map_assign] at hf1 hf2
        split_ifs at hf1 hf2 with h1 h2 h2
        · exact hne (h1.trans h2.symm)
        · have e1 := Option.some.inj hf1
          have := hlt t2 h hf2
          omega
        · have e2 := Option.some.inj hf2
          have := hlt t1 h hf1
          omega
        · exact hinj t1 t2 h hne hf1 hf2
  | shutdown t =>
    show pool_ok (on_thread_shutdown t g) ∧ g.next_handle ≤ (on_thread_shutdown t g).next_handle
    cases hf : map_find t g.handles_ with
    | none =>
      rw [on_thread_shutdown_none t g hf]
      exact ⟨⟨hs, hlt, hinj⟩, le_refl _⟩
    | some h0 =>
      rw [on_thread_shutdown_found t g h0 hf]
      refine ⟨⟨map_erase_sorted t g.handles_ hs, ?_, ?_⟩, le_refl _⟩
      · intro t' h hf'
        simp only [map_find_map_erase t' t g.handles_ hs] at hf'
        split_ifs at hf'
        exact hlt t' h hf'
      · intro t1 t2 h hne hf1 hf2
        simp only [map_find_map_erase _ t g.handles_ hs] at hf1 hf2
        split_ifs at hf1 hf2
        exact hinj t1 t2 h hne hf1 hf2

theorem run_pool_ops_ok (ops : List pool_op) :
    ∀ g : process, pool_ok g →
      pool_ok (run_pool_ops ops g) ∧ g.next_handle ≤ (run_pool_ops ops g).next_handle := by
  induction ops with
  | nil => intro g hg; exact ⟨hg, le_refl _⟩
  | cons op rest ih =>
    intro g hg
    obtain ⟨h1, h2⟩ := pool_op_run_ok op g hg
    obtain ⟨h3, h4⟩ := ih (op.run g) h1
    exact ⟨h3, le_trans h2 h4⟩

/-- A handle recorded for a thread stays recorded over operations that are
not a shutdown of that thread. -/
theorem run_pool_ops_keeps_handle (t h : Nat) (ops : List pool_op) :
    ∀ g : process, pool_ok g → map_find t g.handles_ = some h →
      (∀ op ∈ ops, op ≠ pool_op.shutdown t) →
      map_find t (run_pool_ops ops g).handles_ = some h := by
  induction ops with
  | nil => intro g _ hf _; exact hf
  | cons op rest ih =>
    intro g hg hf hops
    have hstep : map_find t (op.run g).handles_ = some h := by
      cases op with
      | get t' =>
        show map_find t (get_for_this_thread t' g).2.handles_ = some h
        cases hf' : map_find t' g.handles_ with
        | some h' => rw [get_for_this_thread_found t' g h' hf']; exact hf
        | none =>
          rw [get_for_this_thread_new t' g hf']
          have hne : t ≠ t' := by
            intro he
            rw [he, hf'] at hf
            exact Option.noConfusion hf
          simp only [map_find_map_assign, hne, if_false]
          exact hf
      | shutdown t' =>
        have hne : t ≠ t' := fun he => hops (pool_op.shutdown t') (List.mem_cons_self _ _)
          (by rw [he])
        show map_find t (on_thread_shutdown t' g).handles_ = some h
        cases hf' : map_find t' g.handles_ with
        | none => rw [on_thread_shutdown_none t' g hf']; exact hf
        | some h' =>
          rw [on_thread_shutdown_found t' g h' hf']
          simp only [map_find_map_erase t t' g.handles_ hg.1, hne, if_false]
          exact hf
    exact ih (op.run g) (pool_op_run_ok op g hg).1 hstep
      (fun o ho => hops o (List.mem_cons_of_mem _ ho))

/-- A thread without a handle stays without one over operations that are not
a get of that thread. -/
theorem run_pool_ops_keeps_none (t : Nat) (ops : List pool_op) :
    ∀ g : process, pool_ok g → map_find t g.handles_ = none →
      (∀ op ∈ ops, op ≠ pool_op.get t) →
      map_find t (run_pool_ops ops g).handles_ = none := by
  induction ops with
  | nil => intro g _ hf _; exact hf
  | cons op rest ih =>
    intro g hg hf hops
    have hstep : map_find t (op.run g).handles_ = none := by
      cases op with
      | get t' =>
        have hne : t ≠ t' := fun he => hops (pool_op.get t') (List.mem_cons_self _ _)
          (by rw [he])
        show map_find t (get_for_this_thread t' g).2.handles_ = none
        cases hf' : map_find t' g.handles_ with
        | some h' => rw [get_for_this_thread_found t' g h' hf']; exact hf
        | none =>
          rw [get_for_this_thread_new t' g hf']
          simp only [map_find_map_assign, hne, if_false]
          exact hf
      | shutdown t' =>
        show map_find t (on_thread_shutdown t' g).handles_ = none
        cases hf' : map_find t' g.handles_ with
        | none => rw [on_thread_shutdown_none t' g hf']; exact hf
        | some h' =>
          rw [on_thread_shutdown_found t' g h' hf']
          simp only [map_find_map_erase t t' g.handles_ hg.1]
          split_ifs
          · rfl
          · exact hf
    exact ih (op.run g) (pool_op_run_ok op g hg).1 hstep
      (fun o ho => hops o (List.mem_cons_of_mem _ ho))

/-- After a get the thread has the handle returned recorded. -/
theorem get_for_this_thread_records (t : Nat) (g : process) :
    map_find t (get_for_this_thread t g).2.handles_ = some (get_for_this_thread t g).1 := by
  cases hf : map_find t g.handles_ with
  | some h => rw [get_for_this_thread_found t g h hf]; exact hf
  | none =>
    rw [get_for_this_thread_new t g hf]
    simp only [map_find_map_assign, if_true]

/-- C13: in the state reached from the start of the process by any sequence
of `get_for_this_thread` and `on_thread_shutdown` operations, (1) a get by a
thread, any operations other than a shutdown of that thread, and a second
get by the thread return the same handle; (2) the handles recorded for two
different threads differ; (3) when a thread with a recorded handle shuts
down, then after any operations other than a get of that thread its next get
returns the handle `curl_easy_init` creates at that moment, which is not the
released handle nor any handle recorded at the shutdown. -/
theorem handle_pool_contract (registry auto : proxy_settings) (before between : List pool_op)
    (t : Nat) :
    ((∀ op ∈ between, op ≠ pool_op.shutdown t) →
      (get_for_this_thread t (run_pool_ops between
        (get_for_this_thread t (run_pool_ops before (process.start registry auto))).2)).1
      = (get_for_this_thread t (run_pool_ops before (process.start registry auto))).1) ∧
    (∀ t1 t2 h1 h2, t1 ≠ t2 →
      map_find t1 (run_pool_ops before (process.start registry auto)).handles_ = some h1 →
      map_find t2 (run_pool_ops before (process.start registry auto)).handles_ = some h2 →
      h1 ≠ h2) ∧
    (∀ released,
      map_find t (run_pool_ops before (process.start registry auto)).handles_ = some released →
      (∀ op ∈ between, op ≠ pool_op.get t) →
      (get_for_this_thread t (run_pool_ops between
        (on_thread_shutdown t (run_pool_ops before (process.start registry auto))))).1
        = (run_pool_ops between
            (on_thread_shutdown t (run_pool_ops before (process.start registry auto)))).next_handle ∧
      (get_for_this_thread t (run_pool_ops between
        (on_thread_shutdown t (run_pool_ops before (process.start registry auto))))).1
        ≠ released ∧
      ∀ t' h, map_find t' (run_pool_ops before (process.start registry auto)).handles_ = some h →
        (get_for_this_thread t (run_pool_ops between
          (on_thread_shutdown t (run_pool_ops before (process.start registry auto))))).1 ≠ h) := by
  obtain ⟨hG, -⟩ := run_pool_ops_ok before _ (pool_ok_start registry auto)
  generalize run_pool_ops before (process.start registry auto) = G at *
  refine ⟨?_, ?_, ?_⟩
  · intro hops
    have h1 : pool_ok (get_for_this_thread t G).2 := (pool_op_run_ok (pool_op.get t) G hG).1
    have h2 := run_pool_ops_keeps_handle t (get_for_this_thread t G).1 between
      (get_for_this_thread t G).2 h1 (get_for_this_thread_records t G) hops
    rw [get_for_this_thread_found t _ _ h2]
  · intro t1 t2 h1 h2 hne hf1 hf2 heq
    rw [← heq] at hf2
    exact hG.2.2 t1 t2 h1 hne hf1 hf2
  · intro released hrel hops
    have h1 : pool_ok (on_thread_shutdown t G) := (pool_op_run_ok (pool_op.shutdown t) G hG).1
    have hle1 : G.next_handle ≤ (on_thread_shutdown t G).next_handle :=
      (pool_op_run_ok (pool_op.shutdown t) G hG).2
    have hnone : map_find t (on_thread_shutdown t G).handles_ = none := by
      rw [on_thread_shutdown_found t G released hrel]
      simp only [map_find_map_erase t t G.handles_ hG.1, if_true]
    have h2 := run_pool_ops_keeps_none t between (on_thread_shutdown t G) h1 hnone hops
    have hle2 := (run_pool_ops_ok between (on_thread_shutdown t G) h1).2
    rw [get_for_this_thread_new t _ h2]
    refine ⟨rfl, ?_, ?_⟩
    · have := hG.2.1 t released hrel
      show (run_pool_ops between (on_thread_shutdown t G)).next_handle ≠ released
      omega
    · intro t' h hf
      have := hG.2.1 t' h hf
      show (run_pool_ops between (on_thread_shutdown t G)).next_handle ≠ h
      omega

/-- C13, on a sample: thread 1 and thread 2 get handles, thread 1 gets its
handle again, shuts down and gets a new one. -/
theorem handle_pool_contract_witness :
    (get_for_this_thread 1 (run_pool_ops [pool_op.get 2]
      (get_for_this_thread 1 sample_process).2)).1 = (get_for_this_thread 1 sample_process).1 ∧
    (get_for_this_thread 1 sample_process).1 = 1 ∧
    (get_for_this_thread 2 (get_for_this_thread 1 sample_process).2).1 = 2 ∧
    (get_for_this_thread 1 (run_pool_ops [pool_op.get 2]
      (on_thread_shutdown 1 (run_pool_ops [pool_op.get 1] sample_process)))).1 = 3 :=
  ⟨(handle_pool_contract (sample_proxy ['r'] 0) (sample_proxy ['a'] 0) [] [pool_op.get 2] 1).1
    (by decide), by decide, by decide, by decide⟩

/-! ## Keep-alive -/

theorem set_keep_alive_of_on (self : http_request_simple) (h : self.keep_alive_ = true) :
    self.set_keep_alive = self := by
  unfold http_request_simple.set_keep_alive
  rw [if_pos h]

theorem set_keep_alive_on (self : http_request_simple) :
    self.set_keep_alive.keep_alive_ = true := by
  unfold http_request_simple.set_keep_alive
  by_cases h : self.keep_alive_ = true
  · rw [if_pos h]; exact h
  · rw [if_neg h]

theorem set_keep_alive_iterate (n : Nat) (self : http_request_simple) :
    http_request_simple.set_keep_alive^[n + 1] self = self.set_keep_alive := by
  induction n with
  | zero => rfl
  | succ k ih =>
    rw [Function.iterate_succ_apply', ih]
    exact set_keep_alive_of_on _ (set_keep_alive_on self)

/-- C14: `set_keep_alive` is idempotent, for every entity; and on an entity
without keep-alive any number `n ≥ 1` of calls leaves the entity with
keep-alive on and a custom header list that is the old list followed by the
one entry `Connection: keep-alive`. -/
theorem set_keep_alive_idempotent (self : http_request_simple) (n : Nat) :
    self.set_keep_alive.set_keep_alive = self.set_keep_alive ∧
    (1 ≤ n → self.keep_alive_ = false →
      (http_request_simple.set_keep_alive^[n] self).custom_headers_
        = self.custom_headers_ ++ ["Connection: keep-alive".toList] ∧
      (http_request_simple.set_keep_alive^[n] self).custom_headers_.length
        = self.custom_headers_.length + 1 ∧
      (http_request_simple.set_keep_alive^[n] self).keep_alive_ = true ∧
      http_request_simple.set_keep_alive^[n] self = self.set_keep_alive) := by
  refine ⟨set_keep_alive_of_on _ (set_keep_alive_on self), ?_⟩
  intro hn hoff
  obtain ⟨k, rfl⟩ : ∃ k, n = k + 1 := ⟨n - 1, by omega⟩
  rw [set_keep_alive_iterate]
  have hh : self.set_keep_alive.custom_headers_
      = self.custom_headers_ ++ ["Connection: keep-alive".toList] := by
    unfold http_request_simple.set_keep_alive
    simp [hoff]
  refine ⟨hh, ?_, set_keep_alive_on self, rfl⟩
  rw [hh]
  simp

/-- C14, on a sample: three calls on a fresh entity that already has one
custom header. -/
theorem set_keep_alive_idempotent_witness :
    (1 ≤ 3) ∧ (sample_auto_request.set_custom_header_param ['X']).keep_alive_ = false ∧
    (http_request_simple.set_keep_alive^[3]
      (sample_auto_request.set_custom_header_param ['X'])).custom_headers_
      = [['X'], "Connection: keep-alive".toList] :=
  ⟨by decide, rfl,
    ((set_keep_alive_idempotent (sample_auto_request.set_custom_header_param ['X']) 3).2
      (by decide) rfl).1⟩

/-! ## Range of the stored percentage -/

end core
